import Mathlib

/-!
Shallow embedding of `src/_worker.js` (a Git LFS batch-API to S3/R2
presigned-URL proxy running as a Cloudflare Worker) together with models of
the host primitives it relies on (`atob`, `TextDecoder`, `normalize`,
`encodeURIComponent`, `decodeURIComponent`, `encodeURI`, the exception
classification of the surrounding runtime).  The one external capability
(the `aws4fetch` signing primitive) is passed in as an explicit function
parameter, so every theorem quantifies over its behaviour.  The `fetch`
called inside `initiateMultipartUpload` is not external: the module's own
top-level `async function fetch(req, env)` shadows the global `fetch`, so
that call is a deterministic self-call, modelled by `fetchOnString`.
-/

namespace LfsProxy

mutual
/-- JSON values as produced by `req.json()`.  `JsArr`/`JsFields` are inlined
list types so that decidable equality can be derived. -/
inductive JsValue where
  | null : JsValue
  | bool (b : Bool) : JsValue
  | num (n : Int) : JsValue
  | str (s : String) : JsValue
  | arr (xs : JsArr) : JsValue
  | obj (fs : JsFields) : JsValue
deriving DecidableEq

inductive JsArr where
  | nil : JsArr
  | cons (x : JsValue) (xs : JsArr) : JsArr
deriving DecidableEq

inductive JsFields where
  | nil : JsFields
  | cons (k : String) (v : JsValue) (rest : JsFields) : JsFields
deriving DecidableEq
end

/-- Convert an embedded JSON array to a `List` for processing. -/
def JsArr.toList : JsArr → List JsValue
  | .nil => []
  | .cons x xs => x :: JsArr.toList xs

/-- First field with the given name (JSON objects from `JSON.parse` have at
most one binding per key, later duplicates having overwritten earlier ones). -/
def JsFields.lookup : JsFields → String → Option JsValue
  | .nil, _ => none
  | .cons k v rest, key => if k = key then some v else JsFields.lookup rest key

/-- JS property access `v[key]` for the destructuring patterns in the worker:
yields the field of an object, and `undefined` (`none`) on any non-object. -/
def jsGetField (v : JsValue) (key : String) : Option JsValue :=
  match v with
  | .obj fs => fs.lookup key
  | _ => none

/-- JS truthiness of a value (used by the `||` chains in the worker). -/
def jsTruthy : JsValue → Bool
  | .null => false
  | .bool b => b
  | .num n => n != 0
  | .str s => s != ""
  | .arr _ => true
  | .obj _ => true

/-- JS `a || b` where `a` may be `undefined` (`none`). -/
def jsOrV (a : Option JsValue) (b : JsValue) : JsValue :=
  match a with
  | some v => if jsTruthy v then v else b
  | none => b

/-- JS `a || b` on strings (an empty string is falsy). -/
def jsOrStr (a b : String) : String :=
  if a = "" then b else a

/-- Is `pat` a leading part of `l` (used by the split model). -/
def isPrefList : List Char → List Char → Bool
  | [], _ => true
  | _ :: _, [] => false
  | a :: as, b :: bs => a = b && isPrefList as bs

/-- Fuelled worker for `jsSplit` (`acc` is the current segment, reversed). -/
def splitChAux (sep : List Char) : Nat → List Char → List Char → List (List Char)
  | _, [], acc => [acc.reverse]
  | 0, cs, acc => [acc.reverse ++ cs]
  | fuel + 1, c :: cs, acc =>
    if isPrefList sep (c :: cs) then
      acc.reverse :: splitChAux sep fuel (List.drop (sep.length - 1) cs) []
    else splitChAux sep fuel cs (c :: acc)

/-- JS `String.prototype.split` with a non-empty string separator, built by
structural recursion so that concrete instances evaluate inside the kernel. -/
def jsSplit (s sep : String) : List String :=
  if sep = "" then [s]
  else (splitChAux sep.toList s.toList.length s.toList []).map String.mk

/-- JS `String.prototype.includes`. -/
def jsIncludes (s pat : String) : Bool :=
  (jsSplit s pat).length != 1

/-- JS template-literal / property-key stringification of a possibly-undefined
value, as used for `${oid}` and the computed key `[operation]`.  Array
stringification (comma-join of elements) is not modelled: per the LFS data
model `oid` and `operation` are strings, and the model maps arrays to `""`. -/
def jsToStr : Option JsValue → String
  | none => "undefined"
  | some .null => "null"
  | some (.bool true) => "true"
  | some (.bool false) => "false"
  | some (.num n) => toString n
  | some (.str s) => s
  | some (.arr _) => ""
  | some (.obj _) => "[object Object]"

/-- The strict-equality test `operation === "upload"` from the worker. -/
def isUploadOp (v : Option JsValue) : Bool :=
  match v with
  | some (.str s) => s = "upload"
  | _ => false

/-- The comparison `size > bound` from the worker.  JS compares with `>` after
`ToNumber` coercion; `undefined` compares as `NaN` (always false).  Non-number
sizes are outside the LFS data model (spec fixes `size` to an integer) and are
modelled as the `NaN` case. -/
def jsGtNum (v : Option JsValue) (bound : Int) : Bool :=
  match v with
  | some (.num n) => bound < n
  | _ => false

/-- Test for `null`, used to state when JS object destructuring throws. -/
def isNullV : JsValue → Bool
  | .null => true
  | _ => false

/-! ### Host primitives: base64 (`atob`), UTF-8, percent encoding -/

/-- ASCII whitespace removed by forgiving-base64 decode (WHATWG infra). -/
def isB64Ws (c : Char) : Bool :=
  c.toNat = 9 || c.toNat = 10 || c.toNat = 12 || c.toNat = 13 || c.toNat = 32

/-- Value of a base64 alphabet character, `none` outside the alphabet. -/
def b64Val (c : Char) : Option Nat :=
  let n := c.toNat
  if 65 ≤ n ∧ n ≤ 90 then some (n - 65)
  else if 97 ≤ n ∧ n ≤ 122 then some (n - 97 + 26)
  else if 48 ≤ n ∧ n ≤ 57 then some (n - 48 + 52)
  else if n = 43 then some 62
  else if n = 47 then some 63
  else none

/-- Reassemble bytes from 6-bit groups, discarding leftover bits
(forgiving-base64 step 10). -/
def b64Bytes : List Nat → List Nat
  | a :: b :: c :: d :: rest =>
      (a * 4 + b / 16) :: ((b % 16) * 16 + c / 4) :: ((c % 4) * 64 + d) ::
        b64Bytes rest
  | [a, b, c] => [a * 4 + b / 16, (b % 16) * 16 + c / 4]
  | [a, b] => [a * 4 + b / 16]
  | _ => []

/-- Strip up to two trailing `=` characters (forgiving-base64 step 2). -/
def b64StripPad (cs : List Char) : List Char :=
  let cs1 := if cs.getLast? = some (Char.ofNat 61) then cs.dropLast else cs
  if cs1.getLast? = some (Char.ofNat 61) then cs1.dropLast else cs1

/-- Model of the web-platform `atob` (forgiving-base64 decode, WHATWG infra
standard): strips ASCII whitespace, strips up to two trailing padding
characters when the length is a multiple of four, rejects a leftover length
of one and any character outside the base64 alphabet.  `none` models the
`InvalidCharacterError` DOMException thrown by the host. -/
def atob (s : String) : Option (List Nat) :=
  let cs := s.toList.filter (fun c => !isB64Ws c)
  let cs := if cs.length % 4 = 0 then b64StripPad cs else cs
  if cs.length % 4 = 1 then none
  else
    let vals := cs.map b64Val
    if vals.any (·.isNone) then none
    else some (b64Bytes (vals.map (·.getD 0)))

/-- Is a UTF-8 continuation byte. -/
def contB (b : Nat) : Bool := 0x80 ≤ b && b ≤ 0xBF

/-- Allowed range of the second byte given the lead byte (excludes overlong
encodings and surrogates, per WHATWG UTF-8 decode). -/
def utf8Snd (lead b : Nat) : Bool :=
  if lead = 0xE0 then 0xA0 ≤ b && b ≤ 0xBF
  else if lead = 0xED then 0x80 ≤ b && b ≤ 0x9F
  else if lead = 0xF0 then 0x90 ≤ b && b ≤ 0xBF
  else if lead = 0xF4 then 0x80 ≤ b && b ≤ 0x8F
  else contB b

/-- Code point of a two-byte sequence. -/
def cp2 (b1 b2 : Nat) : Nat := (b1 - 0xC0) * 0x40 + (b2 - 0x80)

/-- Code point of a three-byte sequence. -/
def cp3 (b1 b2 b3 : Nat) : Nat :=
  (b1 - 0xE0) * 0x1000 + (b2 - 0x80) * 0x40 + (b3 - 0x80)

/-- Code point of a four-byte sequence. -/
def cp4 (b1 b2 b3 b4 : Nat) : Nat :=
  (b1 - 0xF0) * 0x40000 + (b2 - 0x80) * 0x1000 + (b3 - 0x80) * 0x40 + (b4 - 0x80)

/-- UTF-8 decode with U+FFFD replacement (the default `TextDecoder`), fuelled
by the input length; on a malformed prefix one replacement character is
emitted and decoding resumes at the offending byte (maximal-subpart policy). -/
def utf8ReplAux : Nat → List Nat → List Nat
  | 0, _ => []
  | _, [] => []
  | fuel + 1, b :: rest =>
    if b ≤ 0x7F then b :: utf8ReplAux fuel rest
    else if 0xC2 ≤ b && b ≤ 0xDF then
      match rest with
      | b2 :: rest2 =>
        if contB b2 then cp2 b b2 :: utf8ReplAux fuel rest2
        else 0xFFFD :: utf8ReplAux fuel rest
      | [] => [0xFFFD]
    else if 0xE0 ≤ b && b ≤ 0xEF then
      match rest with
      | b2 :: rest2 =>
        if utf8Snd b b2 then
          match rest2 with
          | b3 :: rest3 =>
            if contB b3 then cp3 b b2 b3 :: utf8ReplAux fuel rest3
            else 0xFFFD :: utf8ReplAux fuel rest2
          | [] => [0xFFFD]
        else 0xFFFD :: utf8ReplAux fuel rest
      | [] => [0xFFFD]
    else if 0xF0 ≤ b && b ≤ 0xF4 then
      match rest with
      | b2 :: rest2 =>
        if utf8Snd b b2 then
          match rest2 with
          | b3 :: rest3 =>
            if contB b3 then
              match rest3 with
              | b4 :: rest4 =>
                if contB b4 then cp4 b b2 b3 b4 :: utf8ReplAux fuel rest4
                else 0xFFFD :: utf8ReplAux fuel rest3
              | [] => [0xFFFD]
            else 0xFFFD :: utf8ReplAux fuel rest2
          | [] => [0xFFFD]
        else 0xFFFD :: utf8ReplAux fuel rest
      | [] => [0xFFFD]
    else 0xFFFD :: utf8ReplAux fuel rest

/-- Model of `new TextDecoder().decode(bytes)` as a list of code points. -/
def utf8DecodeRepl (bs : List Nat) : List Nat := utf8ReplAux bs.length bs

/-- Strict UTF-8 decode (`none` on any malformed input), used by the
`decodeURIComponent` model. -/
def utf8StrictAux : Nat → List Nat → Option (List Nat)
  | 0, l => if l = [] then some [] else none
  | _, [] => some []
  | fuel + 1, b :: rest =>
    if b ≤ 0x7F then (utf8StrictAux fuel rest).map (b :: ·)
    else if 0xC2 ≤ b && b ≤ 0xDF then
      match rest with
      | b2 :: rest2 =>
        if contB b2 then (utf8StrictAux fuel rest2).map (cp2 b b2 :: ·) else none
      | [] => none
    else if 0xE0 ≤ b && b ≤ 0xEF then
      match rest with
      | b2 :: b3 :: rest3 =>
        if utf8Snd b b2 && contB b3 then
          (utf8StrictAux fuel rest3).map (cp3 b b2 b3 :: ·)
        else none
      | _ => none
    else if 0xF0 ≤ b && b ≤ 0xF4 then
      match rest with
      | b2 :: b3 :: b4 :: rest4 =>
        if utf8Snd b b2 && contB b3 && contB b4 then
          (utf8StrictAux fuel rest4).map (cp4 b b2 b3 b4 :: ·)
        else none
      | _ => none
    else none

/-- Strict UTF-8 decode of a byte list. -/
def utf8Strict (bs : List Nat) : Option (List Nat) := utf8StrictAux bs.length bs

/-- Model of `String.prototype.normalize()` (NFC).  The model treats decoded
credential strings as already NFC-normalized; this is exact for ASCII
payloads, and no claim quantifies over non-normalized Unicode credentials. -/
def nfcNormalize (cps : List Nat) : List Nat := cps

/-- Rebuild a Lean string from decoded code points. -/
def cpsToStr (cps : List Nat) : String := String.mk (cps.map Char.ofNat)

/-- UTF-8 encode one code point. -/
def utf8Encode (cp : Nat) : List Nat :=
  if cp ≤ 0x7F then [cp]
  else if cp ≤ 0x7FF then [0xC0 + cp / 0x40, 0x80 + cp % 0x40]
  else if cp ≤ 0xFFFF then
    [0xE0 + cp / 0x1000, 0x80 + (cp / 0x40) % 0x40, 0x80 + cp % 0x40]
  else
    [0xF0 + cp / 0x40000, 0x80 + (cp / 0x1000) % 0x40, 0x80 + (cp / 0x40) % 0x40,
      0x80 + cp % 0x40]

/-- Uppercase hex digit. -/
def hexDigit (n : Nat) : Char := Char.ofNat (if n < 10 then 48 + n else 55 + n)

/-- Escape of one byte as percent plus two hex digits. -/
def pctEncodeByte (b : Nat) : List Char :=
  [Char.ofNat 37, hexDigit (b / 16), hexDigit (b % 16)]

/-- Characters left unescaped by `encodeURIComponent`
(`A-Z a-z 0-9 - _ . ! ~ * ( )` and the apostrophe, code 39). -/
def uriComponentKeep (n : Nat) : Bool :=
  (65 ≤ n && n ≤ 90) || (97 ≤ n && n ≤ 122) || (48 ≤ n && n ≤ 57) ||
    n = 45 || n = 95 || n = 46 || n = 33 || n = 126 || n = 42 || n = 39 ||
    n = 40 || n = 41

/-- Additional characters left unescaped by `encodeURI`
(`; / ? : @ & = + $ , #`). -/
def uriKeep (n : Nat) : Bool :=
  uriComponentKeep n || n = 59 || n = 47 || n = 63 || n = 58 || n = 64 ||
    n = 38 || n = 61 || n = 43 || n = 36 || n = 44 || n = 35

/-- Percent-encode every character not satisfying `keep` (UTF-8 based). -/
def uriEncodeWith (keep : Nat → Bool) (s : String) : String :=
  String.mk ((s.toList.map (fun c =>
    if keep c.toNat then [c]
    else ((utf8Encode c.toNat).map pctEncodeByte).flatten)).flatten)

/-- Model of `encodeURIComponent` (total on Lean strings, which contain no
lone surrogates). -/
def encodeURIComponent (s : String) : String := uriEncodeWith uriComponentKeep s

/-- Model of `encodeURI`. -/
def encodeURI (s : String) : String := uriEncodeWith uriKeep s

/-- Hex digit value for percent decoding. -/
def hexVal (n : Nat) : Option Nat :=
  if 48 ≤ n ∧ n ≤ 57 then some (n - 48)
  else if 65 ≤ n ∧ n ≤ 70 then some (n - 55)
  else if 97 ≤ n ∧ n ≤ 102 then some (n - 87)
  else none

/-- Consume the maximal leading run of `%XX` escapes, returning the decoded
bytes and the rest of the input; `none` on a malformed escape. -/
def pctRun : List Char → Option (List Nat × List Char)
  | c :: c1 :: c2 :: rest =>
    if c.toNat = 37 then
      match hexVal c1.toNat, hexVal c2.toNat with
      | some h1, some h2 =>
        match pctRun rest with
        | some (bs, rem) => some ((h1 * 16 + h2) :: bs, rem)
        | none => none
      | _, _ => none
    else some ([], c :: c1 :: c2 :: rest)
  | l =>
    match l with
    | c :: _ => if c.toNat = 37 then none else some ([], l)
    | [] => some ([], [])

/-- Fuelled worker for `decodeURIComponent`. -/
def decodeURIAux : Nat → List Char → Option (List Char)
  | 0, _ => some []
  | _, [] => some []
  | fuel + 1, c :: cs =>
    if c.toNat = 37 then
      match pctRun (c :: cs) with
      | none => none
      | some (bs, rem) =>
        match utf8Strict bs with
        | none => none
        | some cps => (decodeURIAux fuel rem).map (fun t => cps.map Char.ofNat ++ t)
    else (decodeURIAux fuel cs).map (c :: ·)

/-- Model of `decodeURIComponent` (ECMA-262 `Decode` with an empty reserved
set): decodes runs of `%XX` escapes as strict UTF-8, passing other characters
through; `none` models the `URIError` thrown on malformed input. -/
def decodeURIComponent (s : String) : Option String :=
  (decodeURIAux s.length s.toList).map String.mk

/-! ### Data model of the worker: constants, responses, errors, requests -/

/-- Constant `HOMEPAGE` of `src/_worker.js`. -/
def HOMEPAGE : String := "https://github.com/aibtcdev/git-lfs-s3-proxy"

/-- Constant `EXPIRY` of `src/_worker.js`. -/
def EXPIRY : Nat := 3600

/-- Constant `PART_SIZE = 5 * 1024 * 1024` of `src/_worker.js`. -/
def PART_SIZE : Nat := 5 * 1024 * 1024

/-- One entry of `actions.upload` in the multipart response shape
(`{href, header: {Content-Type}, expires_in, partNumber}`). -/
structure PartAction where
  href : String
  contentType : String
  expires_in : JsValue
  partNumber : Nat
deriving DecidableEq

/-- The `actions.verify` entry of the multipart response shape. -/
structure VerifyAction where
  href : String
  contentType : String
  expires_in : JsValue
deriving DecidableEq

/-- The single action `{href, header: {Content-Type}, expires_in}` of the
non-multipart response shape. -/
structure SingleAction where
  href : String
  contentType : String
  expires_in : JsValue
deriving DecidableEq

/-- The `multipart: {partSize, partCount, uploadId}` metadata. -/
structure MultipartMeta where
  partSize : Nat
  partCount : Nat
  uploadId : String
deriving DecidableEq

/-- One element of the response `objects` array: the multipart success shape,
the single-URL success shape (whose action is stored under the computed key
`[operation]`), or the per-object error shape `{oid, size, error: {message}}`. -/
inductive ObjEntry where
  | mp (oid size : Option JsValue) (uploadActions : List PartAction)
      (verify : VerifyAction) (meta : MultipartMeta)
  | single (oid size : Option JsValue) (actionKey : String) (action : SingleAction)
  | err (oid size : Option JsValue) (message : String)
deriving DecidableEq

/-- Body of an HTTP response produced by the worker: empty (`null`), plain
text, or the JSON batch document `{transfer, objects}` kept structurally. -/
inductive RespBody where
  | empty
  | text (s : String)
  | batch (transfer : String) (objects : List ObjEntry)
deriving DecidableEq

/-- An HTTP response as constructed by the worker. -/
structure ResponseModel where
  status : Nat
  headers : List (String × String)
  body : RespBody
deriving DecidableEq

/-- A JS exception as observed by the worker's `catch` blocks: a thrown
`Response`, a `DOMException` with its name (`atob` throws
`InvalidCharacterError`), a `TypeError`, the `SyntaxError` of `JSON.parse`,
a `URIError` from `decodeURIComponent`, or a plain `Error` with a message. -/
inductive JsError where
  | thrownResp (r : ResponseModel)
  | domExc (name message : String)
  | typeErr (message : String)
  | synErr (message : String)
  | uriErr (message : String)
  | jsErr (message : String)
deriving DecidableEq

/-- The `error.name` read by the catch blocks. -/
def JsError.name : JsError → String
  | .thrownResp _ => ""
  | .domExc n _ => n
  | .typeErr _ => "TypeError"
  | .synErr _ => "SyntaxError"
  | .uriErr _ => "URIError"
  | .jsErr _ => "Error"

/-- The `error.message` read by the catch blocks (`""` stands for the
`undefined` message of a thrown `Response`). -/
def JsError.msg : JsError → String
  | .thrownResp _ => ""
  | .domExc _ m => m
  | .typeErr m => m
  | .synErr m => m
  | .uriErr m => m
  | .jsErr m => m

/-- A plain-text response with no extra headers. -/
def mkTextResp (status : Nat) (body : String) : ResponseModel :=
  { status := status, headers := [], body := .text body }

/-- Model of `Response.redirect(HOMEPAGE, 302)`. -/
def redirectResp : ResponseModel :=
  { status := 302, headers := [("Location", HOMEPAGE)], body := .empty }

/-- Model of the 405 response carrying an `Allow` header. -/
def allowResp (m : String) : ResponseModel :=
  { status := 405, headers := [("Allow", m)], body := .empty }

/-- Model of the empty 404 response. -/
def notFoundResp : ResponseModel :=
  { status := 404, headers := [], body := .empty }

/-- The 200 batch response with its `Cache-Control` / `Content-Type` headers. -/
def batchResp (entries : List ObjEntry) : ResponseModel :=
  { status := 200
    headers := [("Cache-Control", "no-store"),
                ("Content-Type", "application/vnd.git-lfs+json")]
    body := .batch "basic" entries }

/-- The outer catch block of `fetch`: thrown `Response`s pass through, then
classification by `error.name` (`AbortError` → 504, `TypeError` → 400), by
`error.message.includes("NetworkError")` → 503, else 500. -/
def errorToResponse (e : JsError) : ResponseModel :=
  match e with
  | .thrownResp r => r
  | _ =>
    if e.name = "AbortError" then mkTextResp 504 "Request timed out"
    else if e.name = "TypeError" then mkTextResp 400 "Bad request format"
    else if jsIncludes e.msg "NetworkError" then mkTextResp 503 "Network error occurred"
    else mkTextResp 500 "Internal server error"

/-- Reading `response.ok` (Fetch standard: status in the range 200-299). -/
def respOk (r : ResponseModel) : Bool :=
  200 ≤ r.status && r.status ≤ 299

/-- Reading `await response.text()` on a handler-produced response.  The one
response read this way is `fetchOnString`'s, whose body is always text; the
batch arm (which would be the serialized JSON) is unreachable there. -/
def respText (r : ResponseModel) : String :=
  match r.body with
  | .text s => s
  | .empty => ""
  | .batch _ _ => ""

/-- Model of the call `fetch(encodedUrl, {method: "POST", headers: ...})`
inside `initiateMultipartUpload`.  The module declares
`async function fetch(req, env)` at top level, so inside the module this
resolves to the worker's own handler — the global `fetch` is shadowed — with
the string as `req` and the init object as `env`.  On a string, `req.url` is
`undefined`, and `new URL(undefined)` throws a `TypeError` before anything
else in the handler's try block, so its own catch classifies the error:
the promise fulfils with the 400 "Bad request format" response (hence the
`.catch` attached at the call site is dead code).  The result is independent
of the argument. -/
def fetchOnString (_encodedUrl : String) : ResponseModel :=
  errorToResponse (.typeErr "Invalid URL string.")

/-- Whether an `Except` computation succeeded. -/
def isOkE : Except eps alp → Bool
  | .ok _ => true
  | .error _ => false

/-- Decidable equality for `Except`, for evaluating witnesses. -/
instance exceptDecEq {eps alp : Type} [DecidableEq eps] [DecidableEq alp] :
    DecidableEq (Except eps alp)
  | .error e, .error f =>
    if h : e = f then .isTrue (by rw [h])
    else .isFalse (by intro hh; cases hh; exact h rfl)
  | .error _, .ok _ => .isFalse (by intro hh; cases hh)
  | .ok _, .error _ => .isFalse (by intro hh; cases hh)
  | .ok x, .ok y =>
    if h : x = y then .isTrue (by rw [h])
    else .isFalse (by intro hh; cases hh; exact h rfl)

/-- The credential/override set handed to `AwsClient` — a JS object, modelled
as an insertion-ordered association list with one binding per key. -/
abbrev S3Options : Type := List (String × String)

/-- JS property assignment `o[k] = v` (overwrite in place, else append). -/
def jsSet (o : S3Options) (k v : String) : S3Options :=
  if o.any (fun p => p.1 = k) then
    o.map (fun p => if p.1 = k then (k, v) else p)
  else o ++ [(k, v)]

/-- JS property read `o[k]`. -/
def getKey (o : S3Options) (k : String) : Option String :=
  (o.find? (fun p => p.1 = k)).map Prod.snd

/-- The one external capability of the worker: the `aws4fetch` signing
primitive (given credentials, the URL built by `sign`, and the HTTP method,
it returns the presigned URL or throws).  The `fetch` used by the
multipart-initiate step is not a capability: the module's own handler
shadows the global `fetch` there, see `fetchOnString`. -/
structure Caps where
  s3sign : S3Options → String → String → Except JsError String

/-- The worker environment (`env.EXPIRY` may be unset). -/
structure Env where
  EXPIRY : Option JsValue

/-- An inbound request as the worker observes it: `req.method`,
`new URL(req.url).pathname`, the `Authorization` header, and the outcome of
`await req.json()`.  Per the WHATWG Fetch standard and ECMA-262, a body that
is not valid JSON makes `req.json()` reject with a `SyntaxError`; a valid
JSON body yields its parsed value. -/
structure ReqModel where
  method : String
  pathname : String
  authorization : Option String
  jsonOutcome : Except JsError JsValue

/-! ### The worker functions -/

/-- The `Uint8Array.from(atob(encoded), c => c.charCodeAt(0))` line: `atob`
yields a byte string whose `charCodeAt` values are exactly the decoded
bytes, so the model uses `atob`'s byte list directly. -/
def decodedBytes (encoded : String) : Option (List Nat) := atob encoded

/-- The control-character test `/[\0-\x1F\x7F]/.test(decoded)`. -/
def hasCtl (cps : List Nat) : Bool := cps.any (fun n => n ≤ 0x1F || n = 0x7F)

/-- Function `parseAuthorization(req)` from `src/_worker.js`.  Thrown `Response`
objects and the `InvalidCharacterError` DOMException of `atob` are returned
as `JsError`s. -/
def parseAuthorization (auth : Option String) : Except JsError (String × String) :=
  match auth with
  | none => .error (.thrownResp (mkTextResp 401 "Authorization header not found"))
  | some a =>
    let parts := jsSplit a " "
    let scheme := parts[0]?
    let encoded := parts[1]?
    if scheme ≠ some "Basic" ∨ encoded = none ∨ encoded = some "" then
      .error (.thrownResp (mkTextResp 400 "Invalid authorization scheme or credentials"))
    else
      match decodedBytes (encoded.getD "") with
      | none => .error (.domExc "InvalidCharacterError"
          "atob() called with invalid base64-encoded data.")
      | some buffer =>
        let decoded := nfcNormalize (utf8DecodeRepl buffer)
        match decoded.findIdx? (fun n => n = 58) with
        | none => .error (.thrownResp (mkTextResp 400 "Unable to decode authorization"))
        | some index =>
          if hasCtl decoded then
            .error (.thrownResp (mkTextResp 400 "Unable to decode authorization"))
          else
            .ok (cpsToStr (decoded.take index), cpsToStr (decoded.drop (index + 1)))

/-- The URL assembled by `sign(...)` before the signing capability is
invoked: `https://${bucket}/${encodedPath}${encodedQuery}` with each path
segment passed through `encodeURIComponent`. -/
def signUrl (bucket path query : String) : String :=
  let encodedPath := String.intercalate "/" ((jsSplit path "/").map encodeURIComponent)
  let encodedQuery := if query = "" then "" else "?" ++ query
  "https://" ++ bucket ++ "/" ++ encodedPath ++ encodedQuery

/-- Function `sign(s3, bucket, path, method, query)` from `src/_worker.js`: builds the
URL and defers to the `aws4fetch` signing capability.  Note that no expiry
value is passed anywhere. -/
def sign (caps : Caps) (s3 : S3Options) (bucket path method query : String) :
    Except JsError String :=
  caps.s3sign s3 (signUrl bucket path query) method

/-- Function `getSignedUrlForPart` from `src/_worker.js`. -/
def getSignedUrlForPart (caps : Caps) (s3 : S3Options)
    (bucket key uploadId : String) (partNumber : Nat) : Except JsError String :=
  sign caps s3 bucket key "PUT"
    ("partNumber=" ++ toString partNumber ++ "&uploadId=" ++ uploadId ++ "&")

/-- Function `getSignedUrlForCompletion` from `src/_worker.js`. -/
def getSignedUrlForCompletion (caps : Caps) (s3 : S3Options)
    (bucket key uploadId : String) : Except JsError String :=
  sign caps s3 bucket key "POST" ("uploadId=" ++ uploadId ++ "&")

/-- Model of the `UploadId` regex match: content between the
first `<UploadId>` and the following `</UploadId>` (the model assumes the
backend's id contains no newline, as R2/S3 ids do not). -/
def extractUploadId (s : String) : Option String :=
  match jsSplit s "<UploadId>" with
  | _ :: r :: rs =>
    match jsSplit (String.intercalate "<UploadId>" (r :: rs)) "</UploadId>" with
    | x :: _ :: _ => some x
    | _ => none
  | _ => none

/-- Function `initiateMultipartUpload` from `src/_worker.js`.  Its
`fetch(encodedUrl, ...)` is a self-call of the shadowing module handler
(see `fetchOnString`), whose promise always fulfils with the 400 response,
so the `.catch` at the call site never fires; `response.ok` is false, and
the function always throws `R2 responded with status 400: ...`.  The
`match`-failure (`null[1]` throwing a `TypeError`) and empty-id branches of
the source are kept although unreachable; the inner `try/catch` only logs
and rethrows. -/
def initiateMultipartUpload (caps : Caps) (s3 : S3Options)
    (bucket pfx oid : String) : Except JsError String :=
  let key := pfx ++ "/" ++ oid
  match sign caps s3 bucket key "POST" "uploads=" with
  | .error e => .error e
  | .ok signedUrl =>
    let encodedUrl := encodeURI signedUrl
    let response := fetchOnString encodedUrl
    let responseBody := respText response
    if respOk response = false then
      .error (.jsErr ("R2 responded with status " ++ toString response.status ++
        ": " ++ responseBody))
    else
      match extractUploadId responseBody with
      | none => .error (.typeErr "Cannot read properties of null (reading 1)")
      | some uploadId =>
        if uploadId = "" then
          .error (.jsErr "Failed to extract UploadId from R2 response")
        else .ok uploadId

/-- Model of `Math.ceil(size / PART_SIZE)` followed by `Array.from({length: n}, ...)`:
the number of part slots.  For an integer `size ≥ 1` this is the exact
ceiling; for `size ≤ 0` (and for the `NaN` of a non-number size, unreachable
under the `size > PART_SIZE` guard) the constructed array is empty. -/
def jsCeilParts : Option JsValue → Nat
  | some (.num n) => (n + (PART_SIZE : Int) - 1).toNat / PART_SIZE
  | _ => 0

/-- Version, Except-valued, of `Promise.all(list.map(f))`: the map is total
and a rejection of any element rejects the whole (first one in order). -/
def mapE (f : α → Except ε β) : List α → Except ε (List β)
  | [] => .ok []
  | x :: xs =>
    match f x with
    | .error e => .error e
    | .ok y =>
      match mapE f xs with
      | .error e => .error e
      | .ok ys => .ok (y :: ys)

/-- Values returned by `handleMultipartUpload` on success. -/
structure MpResult where
  uploadId : String
  partUrls : List String
  completeUrl : String
  partCount : Nat
deriving DecidableEq

/-- The `try` body of `handleMultipartUpload`: initiate, then one signed PUT
URL per part of `Array.from({length: partCount}, (_, i) => ...)`, then the
completion URL. -/
def handleMultipartTry (caps : Caps) (s3 : S3Options) (bucket pfx oid : String)
    (sizeV : Option JsValue) : Except JsError MpResult := do
  let uploadId ← initiateMultipartUpload caps s3 bucket pfx oid
  let partCount := jsCeilParts sizeV
  let partUrls ← mapE (fun i => getSignedUrlForPart caps s3 bucket
    (pfx ++ "/" ++ oid) uploadId (i + 1)) (List.range partCount)
  let completeUrl ← getSignedUrlForCompletion caps s3 bucket (pfx ++ "/" ++ oid)
    uploadId
  pure ⟨uploadId, partUrls, completeUrl, partCount⟩

/-- The catch block of `handleMultipartUpload`: rewrap the failure into a
fresh `Error` classified by `error.name` / `error.message`. -/
def mpWrapErr (e : JsError) : JsError :=
  if e.name = "AbortError" then
    .jsErr "Multipart upload initialization timed out"
  else if jsIncludes e.msg "AccessDenied" then
    .jsErr "Access denied. Check R2 credentials and permissions."
  else if jsIncludes e.msg "NoSuchBucket" then
    .jsErr "R2 bucket not found. Check bucket name and region."
  else if jsIncludes e.msg "NetworkError" then
    .jsErr "Network error. Check your internet connection and try again."
  else
    .jsErr ("Failed to initialize multipart upload, unknown error: " ++ e.msg)

/-- Function `handleMultipartUpload` from `src/_worker.js` (try body plus catch). -/
def handleMultipartUpload (caps : Caps) (s3 : S3Options) (bucket pfx oid : String)
    (sizeV : Option JsValue) : Except JsError MpResult :=
  match handleMultipartTry caps s3 bucket pfx oid sizeV with
  | .ok r => .ok r
  | .error e => .error (mpWrapErr e)

/-- Model of `partUrls.map((url, index) => ({href, header, expires_in, partNumber:
index + 1}))`, with the running index made explicit. -/
def mkPartActions (expV : JsValue) : List String → Nat → List PartAction
  | [], _ => []
  | u :: us, i =>
    ⟨u, "application/octet-stream", expV, i + 1⟩ :: mkPartActions expV us (i + 1)

/-- The `try` body of the per-object arrow function inside `objects.map`. -/
def processObjectTry (caps : Caps) (s3 : S3Options) (bucket pfx : String)
    (opV : Option JsValue) (expV : JsValue) (oidV sizeV : Option JsValue) :
    Except JsError ObjEntry :=
  if isUploadOp opV && jsGtNum sizeV (PART_SIZE : Int) then
    match handleMultipartUpload caps s3 bucket pfx (jsToStr oidV) sizeV with
    | .error e => .error e
    | .ok r =>
      .ok (.mp oidV sizeV (mkPartActions expV r.partUrls 0)
        ⟨r.completeUrl, "application/xml", expV⟩
        ⟨PART_SIZE, r.partCount, r.uploadId⟩)
  else
    match sign caps s3 bucket (pfx ++ "/" ++ jsToStr oidV)
        (if isUploadOp opV then "PUT" else "GET") "" with
    | .error e => .error e
    | .ok href =>
      .ok (.single oidV sizeV (jsToStr opV)
        ⟨href, (if isUploadOp opV then "application/octet-stream" else ""), expV⟩)

/-- The whole per-object arrow function: its `catch` converts any failure
into the `{oid, size, error: {message}}` entry for that object alone. -/
def processObject (caps : Caps) (s3 : S3Options) (bucket pfx : String)
    (opV : Option JsValue) (expV : JsValue) (oidV sizeV : Option JsValue) : ObjEntry :=
  match processObjectTry caps s3 bucket pfx opV expV oidV sizeV with
  | .ok entry => entry
  | .error e => .err oidV sizeV (jsOrStr e.msg "Internal server error processing object")

/-- Destructuring `({oid, size})` of one array element: throws a `TypeError`
on `null`, otherwise reads the two properties (possibly `undefined`). -/
def destructureObj (x : JsValue) : Except JsError (Option JsValue × Option JsValue) :=
  if isNullV x then
    .error (.typeErr "Cannot destructure property oid of null as it is null")
  else .ok (jsGetField x "oid", jsGetField x "size")

/-- One element of `objects.map(...)`: parameter destructuring happens before
the per-object `try`, so it can reject the element's promise. -/
def processElem (caps : Caps) (s3 : S3Options) (bucket pfx : String)
    (opV : Option JsValue) (expV : JsValue) (x : JsValue) : Except JsError ObjEntry :=
  match destructureObj x with
  | .error e => .error e
  | .ok (oidV, sizeV) => .ok (processObject caps s3 bucket pfx opV expV oidV sizeV)

/-- Destructuring `const {objects, operation} = await req.json()`. -/
def destructureTop (v : JsValue) :
    Except JsError (Option JsValue × Option JsValue) :=
  if isNullV v then
    .error (.typeErr "Cannot destructure property objects of null as it is null")
  else .ok (jsGetField v "objects", jsGetField v "operation")

/-- JS `String.prototype.endsWith` (code-unit suffix match), modelled over
the character list so that concrete instances reduce by `decide`. -/
def jsEndsWith (s pat : String) : Bool :=
  s.toList.reverse.take pat.toList.length = pat.toList.reverse

/-- Model of `url.pathname.split("/").slice(1, -2)`. -/
def segsOf (pathname : String) : List String :=
  let l := jsSplit pathname "/"
  (l.take (l.length - 2)).drop 1

/-- The credential-override loop over the leading `key=value` path segments:
stops at the first segment without `=`, URL-decodes key and value (a
`URIError` propagates), assigns into the options object and counts the
consumed segments (`bucketIdx`). -/
def overrideLoop : List String → S3Options → Except JsError (S3Options × Nat)
  | [], opts => .ok (opts, 0)
  | seg :: rest, opts =>
    match (seg.toList).findIdx? (fun c => c.toNat = 61) with
    | none => .ok (opts, 0)
    | some sliceIdx =>
      match decodeURIComponent (String.mk ((seg.toList).take sliceIdx)),
            decodeURIComponent (String.mk ((seg.toList).drop (sliceIdx + 1))) with
      | some key, some val =>
        match overrideLoop rest (jsSet opts key val) with
        | .ok (opts2, n) => .ok (opts2, n + 1)
        | .error e => .error e
      | _, _ => .error (.uriErr "URI malformed")

/-- Everything the per-request phase computes before fanning out over the
objects.  `objectsV`/`operationV` are the destructured body fields. -/
structure CoreSetup where
  user : String
  pass : String
  s3 : S3Options
  bucket : String
  pfx : String
  objectsV : Option JsValue
  operationV : Option JsValue
deriving DecidableEq

/-- Model of `const expires_in = params.expiry || env.EXPIRY || EXPIRY`: `params` is
declared as `{}` and never written, so its `expiry` property is always
`undefined` and the chain resolves from the environment or the constant. -/
def expiresOf (env : Env) : JsValue :=
  let params : List (String × String) := []
  jsOrV ((params.find? (fun p => p.1 = "expiry")).map (fun p => JsValue.str p.2))
    (jsOrV env.EXPIRY (.num (EXPIRY : Int)))

/-- The env-independent part of `fetch` before object processing: routing
(`/` redirect, 404, 405), `parseAuthorization`, the override loop,
bucket/prefix derivation, `req.json()` and top-level destructuring.
`Sum.inl` is an early `return`; errors propagate to the outer catch.
`segments[bucketIdx]` is `undefined` when no segment is left; it is only ever
interpolated into URL templates, hence stored stringified. -/
def setupCore (req : ReqModel) : Except JsError (ResponseModel ⊕ CoreSetup) :=
  if req.pathname = "/" then
    if req.method = "GET" then .ok (.inl redirectResp)
    else .ok (.inl (allowResp "GET"))
  else if jsEndsWith req.pathname "/objects/batch" = false then .ok (.inl notFoundResp)
  else if req.method ≠ "POST" then .ok (.inl (allowResp "POST"))
  else
    match parseAuthorization req.authorization with
    | .error e => .error e
    | .ok (user, pass) =>
      let segments := segsOf req.pathname
      match overrideLoop segments [("accessKeyId", user), ("secretAccessKey", pass)] with
      | .error e => .error e
      | .ok (s3Options, bucketIdx) =>
        let bucket := match segments[bucketIdx]? with
          | some b => b
          | none => "undefined"
        let pfx := String.intercalate "/" (segments.drop (bucketIdx + 1))
        match req.jsonOutcome with
        | .error e => .error e
        | .ok v =>
          match destructureTop v with
          | .error e => .error e
          | .ok (objectsV, operationV) =>
            .ok (.inr ⟨user, pass, s3Options, bucket, pfx, objectsV, operationV⟩)

/-- The `try` body of the worker's `fetch` handler. -/
def fetchRaw (caps : Caps) (env : Env) (req : ReqModel) :
    Except JsError ResponseModel :=
  match setupCore req with
  | .error e => .error e
  | .ok (.inl r) => .ok r
  | .ok (.inr c) =>
    let expV := expiresOf env
    match c.objectsV with
    | some (.arr a) =>
      match mapE (processElem caps c.s3 c.bucket c.pfx c.operationV expV) a.toList with
      | .error e => .error e
      | .ok entries => .ok (batchResp entries)
    | some _ => .error (.typeErr "objects.map is not a function")
    | none => .error (.typeErr "Cannot read properties of undefined (reading map)")

/-- The complete `fetch(req, env)` handler of `src/_worker.js`. -/
def fetchModel (caps : Caps) (env : Env) (req : ReqModel) : ResponseModel :=
  match fetchRaw caps env req with
  | .ok r => r
  | .error e => errorToResponse e

/-! ### Projections used by the theorems -/

/-- The `oid` carried by a response entry (every shape carries one). -/
def entryOid : ObjEntry → Option JsValue
  | .mp oid _ _ _ _ => oid
  | .single oid _ _ _ => oid
  | .err oid _ _ => oid

/-- The `size` carried by a response entry. -/
def entrySize : ObjEntry → Option JsValue
  | .mp _ size _ _ _ => size
  | .single _ size _ _ => size
  | .err _ size _ => size

/-- Whether a response entry is the per-object error shape. -/
def isErrEntry : ObjEntry → Bool
  | .err _ _ _ => true
  | _ => false

/-- Whether a response entry is the multipart success shape. -/
def isMpEntry : ObjEntry → Bool
  | .mp _ _ _ _ _ => true
  | _ => false

/-- All `expires_in` values attached to the actions of one entry. -/
def entryExpiries : ObjEntry → List JsValue
  | .mp _ _ parts v _ => parts.map (·.expires_in) ++ [v.expires_in]
  | .single _ _ _ a => [a.expires_in]
  | .err _ _ _ => []

/-- All `expires_in` values appearing in a response. -/
def respExpiries (r : ResponseModel) : List JsValue :=
  match r.body with
  | .batch _ es => (es.map entryExpiries).flatten
  | _ => []

/-- All hrefs attached to the actions of one entry. -/
def entryHrefs : ObjEntry → List String
  | .mp _ _ parts v _ => parts.map (·.href) ++ [v.href]
  | .single _ _ _ a => [a.href]
  | .err _ _ _ => []

/-- All hrefs appearing in a response. -/
def respHrefs (r : ResponseModel) : List String :=
  match r.body with
  | .batch _ es => (es.map entryHrefs).flatten
  | _ => []

/-- Replace the `expires_in` of a part action by `0`. -/
def scrubPart (p : PartAction) : PartAction :=
  { p with expires_in := .num 0 }

/-- Erase every `expires_in` of an entry. -/
def scrubEntry : ObjEntry → ObjEntry
  | .mp oid size parts v m =>
    .mp oid size (parts.map scrubPart) { v with expires_in := .num 0 } m
  | .single oid size k a => .single oid size k { a with expires_in := .num 0 }
  | .err oid size m => .err oid size m

/-- Erase every `expires_in` of a response, leaving all else intact. -/
def scrubResp (r : ResponseModel) : ResponseModel :=
  { r with body := match r.body with
      | .batch t es => .batch t (es.map scrubEntry)
      | b => b }

/-- Numeric view of a `JsValue` (for stating counterexamples). -/
def asNum : JsValue → Option Int
  | .num n => some n
  | _ => none

/-- The last value assigned to `key` by the override loop on these segments
(the decoded prefix up to the first segment without `=`), mirroring
`overrideLoop` segment by segment. -/
def lastAssign : List String → String → Option String
  | [], _ => none
  | seg :: rest, key =>
    match (seg.toList).findIdx? (fun c => c.toNat = 61) with
    | none => none
    | some sliceIdx =>
      match decodeURIComponent (String.mk ((seg.toList).take sliceIdx)),
            decodeURIComponent (String.mk ((seg.toList).drop (sliceIdx + 1))) with
      | some k, some v =>
        match lastAssign rest key with
        | some v2 => some v2
        | none => if k = key then some v else none
      | _, _ => none

/-! ### Concrete fixtures for witnesses and counterexamples -/

/-- A signing capability that always succeeds, tagging method and URL. -/
def capsOk : Caps :=
  { s3sign := fun _ url method => .ok ("SIG+" ++ method ++ "+" ++ url) }

/-- A signing capability that always fails. -/
def capsFail : Caps :=
  { s3sign := fun _ _ _ => .error (.jsErr "SigningFailure") }

/-- Build an embedded JSON object from a list of fields. -/
def jobj (l : List (String × JsValue)) : JsValue :=
  .obj (l.foldr (fun p acc => JsFields.cons p.1 p.2 acc) .nil)

/-- Build an embedded JSON array from a list of values. -/
def jarr (l : List JsValue) : JsValue :=
  .arr (l.foldr (fun x acc => JsArr.cons x acc) .nil)

/-- A download batch body with one small object. -/
def dlBody : JsValue :=
  jobj [("operation", .str "download"),
        ("objects", jarr [jobj [("oid", .str "abc"), ("size", .num 123)]])]

/-- An upload batch body with one small and one oversized object. -/
def twoBody : JsValue :=
  jobj [("operation", .str "upload"),
        ("objects", jarr [jobj [("oid", .str "o1"), ("size", .num 7)],
                          jobj [("oid", .str "o2"), ("size", .num 10485761)]])]

/-- Header with `Basic` credentials `AK:SEKRET`. -/
def authOkHeader : String := "Basic QUs6U0VLUkVU"

/-- A well-formed download batch request. -/
def reqDl : ReqModel :=
  { method := "POST", pathname := "/bucket.example.com/files/objects/batch"
    authorization := some authOkHeader, jsonOutcome := .ok dlBody }

/-- A well-formed upload batch request with two objects. -/
def reqTwo : ReqModel :=
  { method := "POST", pathname := "/bucket.example.com/files/objects/batch"
    authorization := some authOkHeader, jsonOutcome := .ok twoBody }

/-- A request whose `Authorization` payload is not decodable base64. -/
def reqBadB64 : ReqModel :=
  { method := "POST", pathname := "/bucket.example.com/files/objects/batch"
    authorization := some "Basic !!!!", jsonOutcome := .ok dlBody }

/-- A request carrying a path segment `expiry=120` before the bucket. -/
def reqExpiry : ReqModel :=
  { method := "POST", pathname := "/expiry=120/bucket.example.com/pfx/objects/batch"
    authorization := some authOkHeader, jsonOutcome := .ok dlBody }

/-- A request whose body is not valid JSON (`req.json()` rejects with the
host's `SyntaxError`). -/
def reqBadJson : ReqModel :=
  { method := "POST", pathname := "/bucket.example.com/files/objects/batch"
    authorization := some authOkHeader
    jsonOutcome := .error (.synErr "Unexpected token o in JSON at position 1") }

/-- A request carrying a path segment `accessKeyId=AK2` before the bucket. -/
def reqOverride : ReqModel :=
  { method := "POST", pathname := "/accessKeyId=AK2/bucket.example.com/objects/batch"
    authorization := some authOkHeader, jsonOutcome := .ok dlBody }

/-- The environment with no `EXPIRY` binding. -/
def envNone : Env := { EXPIRY := none }

/-- The first object of the two-object upload fixture. -/
def o1V : JsValue := jobj [("oid", .str "o1"), ("size", .num 7)]

/-- The second (oversized) object of the two-object upload fixture. -/
def o2V : JsValue := jobj [("oid", .str "o2"), ("size", .num 10485761)]

/-- The embedded objects array of `twoBody`. -/
def aTwo : JsArr := .cons o1V (.cons o2V .nil)

/-- The `CoreSetup` computed by `setupCore` on `reqTwo`. -/
def cTwo : CoreSetup :=
  { user := "AK", pass := "SEKRET"
    s3 := [("accessKeyId", "AK"), ("secretAccessKey", "SEKRET")]
    bucket := "bucket.example.com", pfx := "files"
    objectsV := some (.arr aTwo), operationV := some (.str "upload") }

/-- The `CoreSetup` computed by `setupCore` on `reqOverride`. -/
def cOv : CoreSetup :=
  { user := "AK", pass := "SEKRET"
    s3 := [("accessKeyId", "AK2"), ("secretAccessKey", "SEKRET")]
    bucket := "bucket.example.com", pfx := ""
    objectsV := some (jarr [jobj [("oid", .str "abc"), ("size", .num 123)]])
    operationV := some (.str "download") }

/-- The embedded objects array of `dlBody`. -/
def aDl : JsArr := .cons (jobj [("oid", .str "abc"), ("size", .num 123)]) .nil

/-- The `CoreSetup` computed by `setupCore` on `reqDl`. -/
def cDl : CoreSetup :=
  { user := "AK", pass := "SEKRET"
    s3 := [("accessKeyId", "AK"), ("secretAccessKey", "SEKRET")]
    bucket := "bucket.example.com", pfx := "files"
    objectsV := some (.arr aDl), operationV := some (.str "download") }

/-! ### General lemmas about the embedding -/

theorem mapE_congr_ok {α β ε : Type} {f : α → Except ε β} {g : α → β} :
    ∀ {xs : List α}, (∀ x ∈ xs, f x = .ok (g x)) → mapE f xs = .ok (xs.map g) := by
  intro xs
  induction xs with
  | nil => intro _; simp [mapE]
  | cons x xs ih =>
    intro h
    simp only [mapE]
    rw [h x (by simp), ih (fun y hy => h y (by simp [hy]))]
    simp

theorem getKey_map_upd_self (k v : String) :
    ∀ (o : S3Options), o.any (fun p => p.1 = k) = true →
      getKey (o.map (fun p => if p.1 = k then (k, v) else p)) k = some v := by
  intro o
  induction o with
  | nil => intro h; simp at h
  | cons p o ih =>
    intro h
    by_cases hp : p.1 = k
    · simp [getKey, List.find?, hp]
    · have h' : o.any (fun p => p.1 = k) = true := by
        simp only [List.any_cons] at h
        simpa [hp] using h
      simp only [List.map, getKey, List.find?, hp, if_neg hp]
      simpa [getKey, List.find?, hp] using ih h'

theorem getKey_map_upd_other (k v k' : String) (hne : k' ≠ k) :
    ∀ (o : S3Options),
      getKey (o.map (fun p => if p.1 = k then (k, v) else p)) k' = getKey o k' := by
  intro o
  induction o with
  | nil => simp [getKey]
  | cons p o ih =>
    by_cases hp : p.1 = k
    · have hpk : p.1 ≠ k' := by rw [hp]; exact fun h => hne h.symm
      have hkk : k ≠ k' := fun h => hne h.symm
      simp only [List.map, hp, if_pos hp, getKey, List.find?]
      simpa [getKey, List.find?, hkk, hpk] using ih
    · by_cases hp' : p.1 = k'
      · have hd : decide (p.1 = k') = true := by simp [hp']
        simp only [List.map, if_neg hp, getKey, List.find?, hd]
      · simp only [List.map, if_neg hp]
        simpa [getKey, List.find?, hp, hp'] using ih

theorem getKey_append_self (k v : String) :
    ∀ (o : S3Options), o.any (fun p => p.1 = k) = false →
      getKey (o ++ [(k, v)]) k = some v := by
  intro o
  induction o with
  | nil => intro _; simp [getKey, List.find?]
  | cons p o ih =>
    intro h
    simp only [List.any_cons, Bool.or_eq_false_iff] at h
    have hp : p.1 ≠ k := by simpa using h.1
    simp only [List.cons_append, getKey, List.find?]
    simpa [getKey, hp] using ih (by simpa using h.2)

theorem getKey_append_other (k v k' : String) (hne : k' ≠ k) :
    ∀ (o : S3Options), getKey (o ++ [(k, v)]) k' = getKey o k' := by
  intro o
  induction o with
  | nil => simp [getKey, List.find?, Ne.symm hne]
  | cons p o ih =>
    by_cases hp' : p.1 = k'
    · simp [getKey, List.find?, hp']
    · simp only [List.cons_append, getKey, List.find?]
      simpa [getKey, hp'] using ih

theorem getKey_jsSet (o : S3Options) (k v k' : String) :
    getKey (jsSet o k v) k' = if k' = k then some v else getKey o k' := by
  unfold jsSet
  by_cases hc : o.any (fun p => p.1 = k) = true
  · rw [if_pos hc]
    by_cases hk : k' = k
    · rw [hk, if_pos rfl]; exact getKey_map_upd_self k v o hc
    · rw [if_neg hk]; exact getKey_map_upd_other k v k' hk o
  · rw [if_neg hc]
    by_cases hk : k' = k
    · rw [hk, if_pos rfl]
      exact getKey_append_self k v o (Bool.eq_false_iff.mpr hc)
    · rw [if_neg hk]; exact getKey_append_other k v k' hk o

theorem overrideLoop_getKey :
    ∀ (segs : List String) (o0 opts : S3Options) (n : Nat),
      overrideLoop segs o0 = .ok (opts, n) → ∀ key,
        getKey opts key = (match lastAssign segs key with
          | some v => some v
          | none => getKey o0 key) := by
  intro segs
  induction segs with
  | nil =>
    intro o0 opts n h key
    simp only [overrideLoop, Except.ok.injEq, Prod.mk.injEq] at h
    simp [lastAssign, ← h.1]
  | cons seg rest ih =>
    intro o0 opts n h key
    simp only [overrideLoop] at h
    split at h
    · next heq =>
      simp only [Except.ok.injEq, Prod.mk.injEq] at h
      simp only [lastAssign, heq]
      simp [← h.1]
    · next i heq =>
      split at h
      · next kk vv hk hv =>
        split at h
        · next opts2 n2 hrec =>
          simp only [Except.ok.injEq, Prod.mk.injEq] at h
          have hIH := ih (jsSet o0 kk vv) opts2 n2 hrec key
          rw [← h.1]
          simp only [lastAssign, heq, hk, hv]
          cases hla : lastAssign rest key with
          | some v2 => rw [hla] at hIH; simpa using hIH
          | none =>
            rw [hla] at hIH
            simp only at hIH
            rw [hIH, getKey_jsSet]
            by_cases hkk : kk = key
            · rw [hkk, if_pos rfl, if_pos rfl]
            · rw [if_neg hkk, if_neg (fun hkey => hkk hkey.symm)]
        · next e hrec => exact absurd h (by simp)
      · next x y hxy => exact absurd h (by simp)

theorem scrub_mkPartActions (e1 e2 : JsValue) :
    ∀ (us : List String) (k : Nat),
      (mkPartActions e1 us k).map scrubPart = (mkPartActions e2 us k).map scrubPart := by
  intro us
  induction us with
  | nil => intro k; simp [mkPartActions]
  | cons u us ih =>
    intro k
    simp only [mkPartActions, List.map, List.cons.injEq]
    exact ⟨rfl, ih (k + 1)⟩

theorem processObject_scrub (caps : Caps) (s3 : S3Options) (bucket pfx : String)
    (opV : Option JsValue) (e1 e2 : JsValue) (oidV sizeV : Option JsValue) :
    scrubEntry (processObject caps s3 bucket pfx opV e1 oidV sizeV) =
      scrubEntry (processObject caps s3 bucket pfx opV e2 oidV sizeV) := by
  unfold processObject processObjectTry
  by_cases hg : (isUploadOp opV && jsGtNum sizeV (PART_SIZE : Int)) = true
  · simp only [hg, if_true]
    cases hmp : handleMultipartUpload caps s3 bucket pfx (jsToStr oidV) sizeV with
    | error e => simp [scrubEntry]
    | ok r => simp [scrubEntry, scrub_mkPartActions e1 e2]
  · simp only [hg, if_false, Bool.false_eq_true]
    cases hs : sign caps s3 bucket (pfx ++ "/" ++ jsToStr oidV)
        (if isUploadOp opV then "PUT" else "GET") "" with
    | error e => simp [scrubEntry]
    | ok href => simp [scrubEntry]

theorem mapE_scrub {α β γ ε : Type} (f1 f2 : α → Except ε β) (g : β → γ)
    (h : ∀ x, (∃ e, f1 x = .error e ∧ f2 x = .error e) ∨
        (∃ y1 y2, f1 x = .ok y1 ∧ f2 x = .ok y2 ∧ g y1 = g y2)) :
    ∀ xs : List α,
      (∃ e, mapE f1 xs = .error e ∧ mapE f2 xs = .error e) ∨
      (∃ ys1 ys2, mapE f1 xs = .ok ys1 ∧ mapE f2 xs = .ok ys2 ∧
        ys1.map g = ys2.map g) := by
  intro xs
  induction xs with
  | nil => right; exact ⟨[], [], rfl, rfl, rfl⟩
  | cons x xs ih =>
    rcases h x with ⟨e, h1, h2⟩ | ⟨y1, y2, h1, h2, hg⟩
    · left; exact ⟨e, by simp [mapE, h1], by simp [mapE, h2]⟩
    · rcases ih with ⟨e, i1, i2⟩ | ⟨ys1, ys2, i1, i2, ig⟩
      · left; exact ⟨e, by simp [mapE, h1, i1], by simp [mapE, h2, i2]⟩
      · right
        exact ⟨y1 :: ys1, y2 :: ys2, by simp [mapE, h1, i1],
          by simp [mapE, h2, i2], by simp [hg, ig]⟩

theorem entryHrefs_scrub (e : ObjEntry) : entryHrefs (scrubEntry e) = entryHrefs e := by
  cases e with
  | mp oid size parts v m =>
    simp [scrubEntry, entryHrefs, scrubPart, List.map_map, Function.comp]
  | single oid size k a => simp [scrubEntry, entryHrefs]
  | err oid size m => simp [scrubEntry, entryHrefs]

theorem respHrefs_scrub (r : ResponseModel) : respHrefs (scrubResp r) = respHrefs r := by
  obtain ⟨st, hd, body⟩ := r
  cases body with
  | batch t es =>
    have hfe : entryHrefs ∘ scrubEntry = entryHrefs := funext entryHrefs_scrub
    simp [scrubResp, respHrefs, List.map_map, hfe]
  | empty => simp [scrubResp, respHrefs]
  | text s => simp [scrubResp, respHrefs]

/-! ### The claims -/

/-- C9: the resolved `expires_in` never influences the presigned hrefs: the
`sign` operation receives no expiry argument, so two runs of the same request
that differ only in the environment `EXPIRY` setting (same credentials, path,
body, signing capability and clock) produce identical href values in every
action, the whole responses differing only in the reported `expires_in`
fields (`scrubResp` erases exactly those). -/
theorem c9_expiry_noninterference (caps : Caps) (req : ReqModel)
    (v1 v2 : Option JsValue) :
    scrubResp (fetchModel caps { EXPIRY := v1 } req) =
      scrubResp (fetchModel caps { EXPIRY := v2 } req) ∧
    respHrefs (fetchModel caps { EXPIRY := v1 } req) =
      respHrefs (fetchModel caps { EXPIRY := v2 } req) := by
  have main : scrubResp (fetchModel caps { EXPIRY := v1 } req) =
      scrubResp (fetchModel caps { EXPIRY := v2 } req) := by
    unfold fetchModel fetchRaw
    cases hs : setupCore req with
    | error e => simp [hs]
    | ok sum =>
      cases sum with
      | inl r => simp [hs]
      | inr c =>
        simp only [hs]
        cases hobj : c.objectsV with
        | none => simp [hobj]
        | some v =>
          cases v with
          | arr a =>
            have hpt : ∀ x,
                (∃ e, processElem caps c.s3 c.bucket c.pfx c.operationV
                    (expiresOf { EXPIRY := v1 }) x = .error e ∧
                  processElem caps c.s3 c.bucket c.pfx c.operationV
                    (expiresOf { EXPIRY := v2 }) x = .error e) ∨
                (∃ y1 y2, processElem caps c.s3 c.bucket c.pfx c.operationV
                    (expiresOf { EXPIRY := v1 }) x = .ok y1 ∧
                  processElem caps c.s3 c.bucket c.pfx c.operationV
                    (expiresOf { EXPIRY := v2 }) x = .ok y2 ∧
                  scrubEntry y1 = scrubEntry y2) := by
              intro x
              cases hd : destructureObj x with
              | error e =>
                left; exact ⟨e, by simp [processElem, hd], by simp [processElem, hd]⟩
              | ok p =>
                obtain ⟨oidV, sizeV⟩ := p
                right
                exact ⟨_, _, by simp [processElem, hd], by simp [processElem, hd],
                  processObject_scrub caps c.s3 c.bucket c.pfx c.operationV
                    (expiresOf { EXPIRY := v1 }) (expiresOf { EXPIRY := v2 }) oidV sizeV⟩
            have hrel := mapE_scrub
              (processElem caps c.s3 c.bucket c.pfx c.operationV
                (expiresOf { EXPIRY := v1 }))
              (processElem caps c.s3 c.bucket c.pfx c.operationV
                (expiresOf { EXPIRY := v2 }))
              scrubEntry hpt a.toList
            rcases hrel with ⟨e, h1, h2⟩ | ⟨ys1, ys2, h1, h2, hg⟩
            · simp [hobj, h1, h2]
            · simp [hobj, h1, h2, scrubResp, batchResp, hg]
          | null => simp [hobj]
          | bool b => simp [hobj]
          | num n => simp [hobj]
          | str s => simp [hobj]
          | obj fs => simp [hobj]
  refine ⟨main, ?_⟩
  have := congrArg respHrefs main
  simpa [respHrefs_scrub] using this

/-- C8: routing contract: `GET` on the root path returns HTTP 302 with a
`Location` header pointing at the fixed project homepage; any non-GET method
on the root path returns 405 with header `Allow: GET`; any other path not
ending in `/objects/batch` returns 404; a non-POST method on a path ending in
`/objects/batch` returns 405 with header `Allow: POST`. -/
theorem c8_routing (caps : Caps) (env : Env) (req : ReqModel) :
    (req.pathname = "/" → req.method = "GET" →
      fetchModel caps env req = redirectResp ∧
      (fetchModel caps env req).status = 302 ∧
      ("Location", HOMEPAGE) ∈ (fetchModel caps env req).headers) ∧
    (req.pathname = "/" → req.method ≠ "GET" →
      fetchModel caps env req = allowResp "GET" ∧
      (fetchModel caps env req).status = 405 ∧
      ("Allow", "GET") ∈ (fetchModel caps env req).headers) ∧
    (req.pathname ≠ "/" → jsEndsWith req.pathname "/objects/batch" = false →
      fetchModel caps env req = notFoundResp ∧
      (fetchModel caps env req).status = 404) ∧
    (jsEndsWith req.pathname "/objects/batch" = true → req.method ≠ "POST" →
      fetchModel caps env req = allowResp "POST" ∧
      (fetchModel caps env req).status = 405 ∧
      ("Allow", "POST") ∈ (fetchModel caps env req).headers) := by
  refine ⟨?_, ?_, ?_, ?_⟩
  · intro h1 h2
    simp [fetchModel, fetchRaw, setupCore, h1, h2, redirectResp]
  · intro h1 h2
    simp [fetchModel, fetchRaw, setupCore, h1, h2, allowResp]
  · intro h1 h2
    simp [fetchModel, fetchRaw, setupCore, h1, h2, notFoundResp]
  · intro h1 h2
    have hroot : req.pathname ≠ "/" := by
      intro hr
      rw [hr] at h1
      exact absurd h1 (by decide)
    simp [fetchModel, fetchRaw, setupCore, hroot, h1, h2, allowResp]

/-- Witness for C8 at the four concrete routing situations. -/
theorem c8_routing_witness :
    fetchModel capsOk envNone
      { method := "GET", pathname := "/", authorization := none,
        jsonOutcome := .ok .null } = redirectResp ∧
    fetchModel capsOk envNone
      { method := "POST", pathname := "/", authorization := none,
        jsonOutcome := .ok .null } = allowResp "GET" ∧
    fetchModel capsOk envNone
      { method := "POST", pathname := "/foo", authorization := none,
        jsonOutcome := .ok .null } = notFoundResp ∧
    fetchModel capsOk envNone
      { method := "PUT", pathname := "/b/objects/batch", authorization := none,
        jsonOutcome := .ok .null } = allowResp "POST" :=
  ⟨((c8_routing capsOk envNone
      { method := "GET", pathname := "/", authorization := none,
        jsonOutcome := .ok .null }).1 rfl rfl).1,
   ((c8_routing capsOk envNone
      { method := "POST", pathname := "/", authorization := none,
        jsonOutcome := .ok .null }).2.1 rfl (by decide)).1,
   ((c8_routing capsOk envNone
      { method := "POST", pathname := "/foo", authorization := none,
        jsonOutcome := .ok .null }).2.2.1
      (by decide : ("/foo" : String) ≠ "/")
      (by decide : jsEndsWith "/foo" "/objects/batch" = false)).1,
   ((c8_routing capsOk envNone
      { method := "PUT", pathname := "/b/objects/batch", authorization := none,
        jsonOutcome := .ok .null }).2.2.2
      (by decide : jsEndsWith "/b/objects/batch" "/objects/batch" = true)
      (by decide : ("PUT" : String) ≠ "POST")).1⟩

theorem processObject_oid_size (caps : Caps) (s3 : S3Options) (bucket pfx : String)
    (opV : Option JsValue) (expV : JsValue) (oidV sizeV : Option JsValue) :
    entryOid (processObject caps s3 bucket pfx opV expV oidV sizeV) = oidV ∧
    entrySize (processObject caps s3 bucket pfx opV expV oidV sizeV) = sizeV := by
  unfold processObject processObjectTry
  by_cases hg : (isUploadOp opV && jsGtNum sizeV (PART_SIZE : Int)) = true
  · simp only [hg, if_true]
    cases handleMultipartUpload caps s3 bucket pfx (jsToStr oidV) sizeV <;>
      simp [entryOid, entrySize]
  · simp only [hg, if_false, Bool.false_eq_true]
    cases sign caps s3 bucket (pfx ++ "/" ++ jsToStr oidV)
        (if isUploadOp opV then "PUT" else "GET") "" <;>
      simp [entryOid, entrySize]

theorem processElem_ok_of_nonNull (caps : Caps) (s3 : S3Options) (bucket pfx : String)
    (opV : Option JsValue) (expV : JsValue) (x : JsValue) (hx : isNullV x = false) :
    processElem caps s3 bucket pfx opV expV x =
      .ok (processObject caps s3 bucket pfx opV expV
        (jsGetField x "oid") (jsGetField x "size")) := by
  simp [processElem, destructureObj, hx]

theorem fetch_batch_eq (caps : Caps) (env : Env) (req : ReqModel) (c : CoreSetup)
    (a : JsArr)
    (hsetup : setupCore req = .ok (.inr c))
    (hobjs : c.objectsV = some (.arr a))
    (hnn : ∀ x ∈ a.toList, isNullV x = false) :
    fetchModel caps env req = batchResp
      (a.toList.map (fun x =>
        processObject caps c.s3 c.bucket c.pfx c.operationV (expiresOf env)
          (jsGetField x "oid") (jsGetField x "size"))) := by
  have hmap : mapE (processElem caps c.s3 c.bucket c.pfx c.operationV (expiresOf env))
      a.toList = .ok (a.toList.map (fun x =>
        processObject caps c.s3 c.bucket c.pfx c.operationV (expiresOf env)
          (jsGetField x "oid") (jsGetField x "size"))) :=
    mapE_congr_ok (fun x hx =>
      processElem_ok_of_nonNull caps c.s3 c.bucket c.pfx c.operationV
        (expiresOf env) x (hnn x hx))
  simp [fetchModel, fetchRaw, hsetup, hobjs, hmap]

/-- C2: for every batch request that passes auth and routing (and whose body
destructures to an objects array with no `null` element), a failure while
processing one object — the per-object `try` rejecting with a signing
failure, multipart-initiate failure or backend error — is converted into that
object's error payload only; every sibling object is still processed (the
response objects are exactly the independent per-object results, in order),
and the overall HTTP response has status 200 for every behaviour of the
signing/backend capabilities, hence even when every object errored. -/
theorem c2_isolation (caps : Caps) (env : Env) (req : ReqModel) (c : CoreSetup)
    (a : JsArr)
    (hsetup : setupCore req = .ok (.inr c))
    (hobjs : c.objectsV = some (.arr a))
    (hnn : ∀ x ∈ a.toList, isNullV x = false) :
    (fetchModel caps env req).status = 200 ∧
    (fetchModel caps env req).body = .batch "basic"
      (a.toList.map (fun x => processObject caps c.s3 c.bucket c.pfx c.operationV
        (expiresOf env) (jsGetField x "oid") (jsGetField x "size"))) ∧
    (∀ x ∈ a.toList,
      entryOid (processObject caps c.s3 c.bucket c.pfx c.operationV (expiresOf env)
        (jsGetField x "oid") (jsGetField x "size")) = jsGetField x "oid" ∧
      entrySize (processObject caps c.s3 c.bucket c.pfx c.operationV (expiresOf env)
        (jsGetField x "oid") (jsGetField x "size")) = jsGetField x "size") ∧
    (∀ x ∈ a.toList, ∀ e,
      processObjectTry caps c.s3 c.bucket c.pfx c.operationV (expiresOf env)
        (jsGetField x "oid") (jsGetField x "size") = .error e →
      processObject caps c.s3 c.bucket c.pfx c.operationV (expiresOf env)
        (jsGetField x "oid") (jsGetField x "size") =
        .err (jsGetField x "oid") (jsGetField x "size")
          (jsOrStr e.msg "Internal server error processing object")) := by
  have hresp := fetch_batch_eq caps env req c a hsetup hobjs hnn
  refine ⟨by rw [hresp]; rfl, by rw [hresp]; rfl, ?_, ?_⟩
  · intro x hx
    exact processObject_oid_size caps c.s3 c.bucket c.pfx c.operationV
      (expiresOf env) (jsGetField x "oid") (jsGetField x "size")
  · intro x hx e hTry
    simp [processObject, hTry]

/-- Witness for C2: with an always-failing signing capability, both objects
of a two-object batch are answered by their own error payloads and the
response status is still 200. -/
theorem c2_isolation_witness :
    (fetchModel capsFail envNone reqTwo).status = 200 ∧
    (fetchModel capsFail envNone reqTwo).body = .batch "basic"
      [.err (some (.str "o1")) (some (.num 7)) "SigningFailure",
       .err (some (.str "o2")) (some (.num 10485761))
         "Failed to initialize multipart upload, unknown error: SigningFailure"] := by
  have h := c2_isolation capsFail envNone reqTwo cTwo aTwo (by decide) rfl (by decide)
  exact ⟨h.1, h.2.1.trans (by decide)⟩

/-- C4: for every batch request (reaching object processing, with no `null`
element), each input object's oid appears exactly once in the response
objects array when the input oids are distinct, each response entry preserves
the oid and size of its corresponding request object (whether it succeeded or
errored), and the response array's order is positionally identical to the
request array's order (the oid and size columns agree position by position). -/
theorem c4_order (caps : Caps) (env : Env) (req : ReqModel) (c : CoreSetup)
    (a : JsArr)
    (hsetup : setupCore req = .ok (.inr c))
    (hobjs : c.objectsV = some (.arr a))
    (hnn : ∀ x ∈ a.toList, isNullV x = false) :
    (fetchModel caps env req).body = .batch "basic"
      (a.toList.map (fun x => processObject caps c.s3 c.bucket c.pfx c.operationV
        (expiresOf env) (jsGetField x "oid") (jsGetField x "size"))) ∧
    (a.toList.map (fun x => processObject caps c.s3 c.bucket c.pfx c.operationV
        (expiresOf env) (jsGetField x "oid") (jsGetField x "size"))).map entryOid =
      a.toList.map (fun x => jsGetField x "oid") ∧
    (a.toList.map (fun x => processObject caps c.s3 c.bucket c.pfx c.operationV
        (expiresOf env) (jsGetField x "oid") (jsGetField x "size"))).map entrySize =
      a.toList.map (fun x => jsGetField x "size") ∧
    (a.toList.map (fun x => processObject caps c.s3 c.bucket c.pfx c.operationV
        (expiresOf env) (jsGetField x "oid") (jsGetField x "size"))).length =
      a.toList.length ∧
    ((a.toList.map (fun x => jsGetField x "oid")).Nodup →
      ∀ x ∈ a.toList,
        @List.count (Option JsValue) instBEqOfDecidableEq (jsGetField x "oid")
          ((a.toList.map (fun x => processObject caps c.s3 c.bucket c.pfx c.operationV
            (expiresOf env) (jsGetField x "oid") (jsGetField x "size"))).map
              entryOid) = 1) := by
  have hoid : (a.toList.map (fun x => processObject caps c.s3 c.bucket c.pfx
      c.operationV (expiresOf env) (jsGetField x "oid")
      (jsGetField x "size"))).map entryOid =
      a.toList.map (fun x => jsGetField x "oid") := by
    rw [List.map_map]
    apply List.map_congr_left
    intro x hx
    exact (processObject_oid_size caps c.s3 c.bucket c.pfx c.operationV
      (expiresOf env) (jsGetField x "oid") (jsGetField x "size")).1
  have hsize : (a.toList.map (fun x => processObject caps c.s3 c.bucket c.pfx
      c.operationV (expiresOf env) (jsGetField x "oid")
      (jsGetField x "size"))).map entrySize =
      a.toList.map (fun x => jsGetField x "size") := by
    rw [List.map_map]
    apply List.map_congr_left
    intro x hx
    exact (processObject_oid_size caps c.s3 c.bucket c.pfx c.operationV
      (expiresOf env) (jsGetField x "oid") (jsGetField x "size")).2
  refine ⟨?_, hoid, hsize, by simp, ?_⟩
  · rw [fetch_batch_eq caps env req c a hsetup hobjs hnn]; rfl
  · intro hnd x hx
    rw [hoid]
    exact List.count_eq_one_of_mem hnd
      (List.mem_map_of_mem (fun x => jsGetField x "oid") hx)

/-- Witness for C4 on the two-object upload fixture. -/
theorem c4_order_witness :
    (fetchModel capsOk envNone reqTwo).body = .batch "basic"
      (aTwo.toList.map (fun x => processObject capsOk cTwo.s3 cTwo.bucket cTwo.pfx
        cTwo.operationV (expiresOf envNone) (jsGetField x "oid")
        (jsGetField x "size"))) ∧
    (aTwo.toList.map (fun x => processObject capsOk cTwo.s3 cTwo.bucket cTwo.pfx
        cTwo.operationV (expiresOf envNone) (jsGetField x "oid")
        (jsGetField x "size"))).map entryOid =
      [some (.str "o1"), some (.str "o2")] ∧
    @List.count (Option JsValue) instBEqOfDecidableEq (some (.str "o1"))
      ((aTwo.toList.map (fun x => processObject capsOk cTwo.s3 cTwo.bucket cTwo.pfx
        cTwo.operationV (expiresOf envNone) (jsGetField x "oid")
        (jsGetField x "size"))).map entryOid) = 1 := by
  have h := c4_order capsOk envNone reqTwo cTwo aTwo (by decide) rfl (by decide)
  refine ⟨h.1, h.2.1.trans (by decide), ?_⟩
  have hc := h.2.2.2.2 (by decide) o1V (by decide)
  simpa using hc

/-- C3: for every batch object, the multipart strategy is taken exactly when
`operation` equals `"upload"` and the (numeric) size is strictly greater than
5 MiB — the branch guard is equivalent to that condition, and the multipart
response shape (part hrefs plus `verify` completion href plus multipart
metadata whose `partSize` is 5 MiB) arises only under it, signing/initiate
failures yielding the per-object error instead; in every other case
(including upload at exactly 5 MiB and download of any size) a single signed
URL is issued, with method `PUT` when the operation is `"upload"` and `GET`
otherwise. -/
theorem c3_strategy (caps : Caps) (s3 : S3Options) (bucket pfx : String)
    (opV : Option JsValue) (expV : JsValue) (oidV sizeV : Option JsValue) :
    ((isUploadOp opV && jsGtNum sizeV (PART_SIZE : Int)) = true ↔
      (opV = some (.str "upload") ∧
        ∃ n : Int, sizeV = some (.num n) ∧ (PART_SIZE : Int) < n)) ∧
    (∀ oid size parts v m,
      processObject caps s3 bucket pfx opV expV oidV sizeV = .mp oid size parts v m →
      (isUploadOp opV && jsGtNum sizeV (PART_SIZE : Int)) = true) ∧
    ((isUploadOp opV && jsGtNum sizeV (PART_SIZE : Int)) = true →
      (∃ parts v m, processObject caps s3 bucket pfx opV expV oidV sizeV =
          .mp oidV sizeV parts v m ∧ m.partSize = PART_SIZE) ∨
      (∃ msg, processObject caps s3 bucket pfx opV expV oidV sizeV =
          .err oidV sizeV msg)) ∧
    ((isUploadOp opV && jsGtNum sizeV (PART_SIZE : Int)) = false →
      (∀ href, caps.s3sign s3 (signUrl bucket (pfx ++ "/" ++ jsToStr oidV) "")
          (if isUploadOp opV then "PUT" else "GET") = .ok href →
        processObject caps s3 bucket pfx opV expV oidV sizeV =
          .single oidV sizeV (jsToStr opV)
            ⟨href, (if isUploadOp opV then "application/octet-stream" else ""), expV⟩) ∧
      (∀ e, caps.s3sign s3 (signUrl bucket (pfx ++ "/" ++ jsToStr oidV) "")
          (if isUploadOp opV then "PUT" else "GET") = .error e →
        processObject caps s3 bucket pfx opV expV oidV sizeV =
          .err oidV sizeV (jsOrStr e.msg "Internal server error processing object"))) := by
  refine ⟨?_, ?_, ?_, ?_⟩
  · constructor
    · intro h
      rw [Bool.and_eq_true] at h
      obtain ⟨h1, h2⟩ := h
      constructor
      · cases opV with
        | none => simp [isUploadOp] at h1
        | some v => cases v <;> simp_all [isUploadOp]
      · cases sizeV with
        | none => simp [jsGtNum] at h2
        | some v =>
          cases v with
          | num n => exact ⟨n, rfl, by simpa [jsGtNum] using h2⟩
          | null => simp [jsGtNum] at h2
          | bool b => simp [jsGtNum] at h2
          | str s => simp [jsGtNum] at h2
          | arr a => simp [jsGtNum] at h2
          | obj fs => simp [jsGtNum] at h2
    · rintro ⟨h1, n, h2, h3⟩
      subst h1; subst h2
      simp [isUploadOp, jsGtNum, h3]
  · intro oid size parts v m hmp
    by_cases hg : (isUploadOp opV && jsGtNum sizeV (PART_SIZE : Int)) = true
    · exact hg
    · exfalso
      rw [Bool.not_eq_true] at hg
      unfold processObject processObjectTry at hmp
      simp only [hg, if_false, Bool.false_eq_true] at hmp
      cases hs : sign caps s3 bucket (pfx ++ "/" ++ jsToStr oidV)
          (if isUploadOp opV then "PUT" else "GET") "" with
      | error e => rw [hs] at hmp; simp at hmp
      | ok href => rw [hs] at hmp; simp at hmp
  · intro hg
    unfold processObject processObjectTry
    simp only [hg, if_true]
    cases hmp : handleMultipartUpload caps s3 bucket pfx (jsToStr oidV) sizeV with
    | error e =>
      right
      exact ⟨jsOrStr e.msg "Internal server error processing object", by simp [hmp]⟩
    | ok r =>
      left
      exact ⟨mkPartActions expV r.partUrls 0, ⟨r.completeUrl, "application/xml", expV⟩,
        ⟨PART_SIZE, r.partCount, r.uploadId⟩, by simp [hmp], rfl⟩
  · intro hg
    constructor
    · intro href hs
      unfold processObject processObjectTry
      simp only [hg, if_false, Bool.false_eq_true]
      have hs' : sign caps s3 bucket (pfx ++ "/" ++ jsToStr oidV)
          (if isUploadOp opV then "PUT" else "GET") "" = .ok href := hs
      rw [hs']
    · intro e hs
      unfold processObject processObjectTry
      simp only [hg, if_false, Bool.false_eq_true]
      have hs' : sign caps s3 bucket (pfx ++ "/" ++ jsToStr oidV)
          (if isUploadOp opV then "PUT" else "GET") "" = .error e := hs
      rw [hs']

/-- Witness for C3: a small download object yields a single signed `GET`
URL. -/
theorem c3_strategy_witness :
    processObject capsOk [] "b" "p" (some (.str "download")) (.num 3600)
      (some (.str "o")) (some (.num 5)) =
      .single (some (.str "o")) (some (.num 5)) "download"
        ⟨"SIG+GET+https://b/p/o", "", .num 3600⟩ ∧
    (isUploadOp (some (.str "download")) &&
      jsGtNum (some (.num 5)) (PART_SIZE : Int)) = false := by
  refine ⟨?_, by decide⟩
  have h := (c3_strategy capsOk [] "b" "p" (some (.str "download")) (.num 3600)
    (some (.str "o")) (some (.num 5))).2.2.2 (by decide)
  exact h.1 "SIG+GET+https://b/p/o" (by decide)

theorem exceptBind_ok {alp bet eps : Type} {a : Except eps alp}
    {f : alp → Except eps bet} {b : bet}
    (h : (a >>= f) = .ok b) : ∃ x, a = .ok x ∧ f x = .ok b := by
  cases a with
  | ok x => exact ⟨x, rfl, h⟩
  | error e => exact Except.noConfusion h

theorem initiateMultipartUpload_not_ok (caps : Caps) (s3 : S3Options)
    (bucket pfx oid : String) :
    isOkE (initiateMultipartUpload caps s3 bucket pfx oid) = false := by
  unfold initiateMultipartUpload
  cases hs : sign caps s3 bucket (pfx ++ "/" ++ oid) "POST" "uploads=" with
  | error e => simp [isOkE, hs]
  | ok signedUrl =>
    simp [isOkE, hs, fetchOnString, respOk, respText, errorToResponse,
      mkTextResp, JsError.name]

theorem handleMultipartUpload_not_ok (caps : Caps) (s3 : S3Options)
    (bucket pfx oid : String) (sizeV : Option JsValue) :
    isOkE (handleMultipartUpload caps s3 bucket pfx oid sizeV) = false := by
  unfold handleMultipartUpload
  cases ht : handleMultipartTry caps s3 bucket pfx oid sizeV with
  | error e => simp [isOkE]
  | ok r =>
    exfalso
    unfold handleMultipartTry at ht
    obtain ⟨u, hinit, _⟩ := exceptBind_ok ht
    have hno := initiateMultipartUpload_not_ok caps s3 bucket pfx oid
    rw [hinit] at hno
    simp [isOkE] at hno

theorem processObject_not_mp (caps : Caps) (s3 : S3Options) (bucket pfx : String)
    (opV : Option JsValue) (expV : JsValue) (oidV sizeV : Option JsValue) :
    isMpEntry (processObject caps s3 bucket pfx opV expV oidV sizeV) = false := by
  unfold processObject processObjectTry
  by_cases hg : (isUploadOp opV && jsGtNum sizeV (PART_SIZE : Int)) = true
  · simp only [hg, if_true]
    cases hh : handleMultipartUpload caps s3 bucket pfx (jsToStr oidV) sizeV with
    | error e => simp [isMpEntry]
    | ok r =>
      exfalso
      have hno := handleMultipartUpload_not_ok caps s3 bucket pfx
        (jsToStr oidV) sizeV
      rw [hh] at hno
      simp [isOkE] at hno
  · simp only [hg, if_false, Bool.false_eq_true]
    cases hs : sign caps s3 bucket (pfx ++ "/" ++ jsToStr oidV)
        (if isUploadOp opV then "PUT" else "GET") "" <;>
      simp [isMpEntry]

/-- C1 (code bug): the claim states the intended multipart contract —
`ceil(size/5MiB)` signed part hrefs numbered `1..partCount` — but the
program cannot exhibit it.  Inside the module the global `fetch` is shadowed
by the worker's own handler, so the multipart-initiate call
`fetch(encodedUrl, ...)` is a self-call with a string argument, which throws
a `TypeError` at `new URL(req.url)` and resolves to the 400 "Bad request
format" response; `initiateMultipartUpload` therefore never succeeds, for
every signing behaviour the multipart response shape is unreachable, and at
the failing input (a 10485761-byte upload) the object is answered by the
per-object error payload instead of part hrefs. -/
theorem c1_multipart_unreachable :
    (∀ (caps : Caps) (s3 : S3Options) (bucket pfx oid : String),
      isOkE (initiateMultipartUpload caps s3 bucket pfx oid) = false) ∧
    (∀ (caps : Caps) (s3 : S3Options) (bucket pfx : String)
      (opV : Option JsValue) (expV : JsValue) (oidV sizeV : Option JsValue),
      isMpEntry (processObject caps s3 bucket pfx opV expV oidV sizeV) = false) ∧
    (fetchModel capsOk envNone reqTwo).body = .batch "basic"
      [.single (some (.str "o1")) (some (.num 7)) "upload"
        ⟨"SIG+PUT+https://bucket.example.com/files/o1",
          "application/octet-stream", .num 3600⟩,
       .err (some (.str "o2")) (some (.num 10485761))
         "Failed to initialize multipart upload, unknown error: R2 responded with status 400: Bad request format"] :=
  ⟨initiateMultipartUpload_not_ok, processObject_not_mp, by decide⟩

/-- C10: path-embedded `key=value` override segments are merged into the
signing options after the Basic-Auth credentials: whenever the decoded
override prefix of the path assigns `accessKeyId` (resp. `secretAccessKey`),
its last assigned value — captured by `lastAssign` — replaces the credential
decoded from the `Authorization` header in the option set handed to the
signing client, and when it assigns neither, the header credentials stand. -/
theorem c10_override_creds (req : ReqModel) (u pw : String) (c : CoreSetup)
    (hauth : parseAuthorization req.authorization = .ok (u, pw))
    (hsetup : setupCore req = .ok (.inr c)) :
    (∀ v, lastAssign (segsOf req.pathname) "accessKeyId" = some v →
      getKey c.s3 "accessKeyId" = some v) ∧
    (∀ v, lastAssign (segsOf req.pathname) "secretAccessKey" = some v →
      getKey c.s3 "secretAccessKey" = some v) ∧
    (lastAssign (segsOf req.pathname) "accessKeyId" = none →
      getKey c.s3 "accessKeyId" = some u) ∧
    (lastAssign (segsOf req.pathname) "secretAccessKey" = none →
      getKey c.s3 "secretAccessKey" = some pw) := by
  simp only [setupCore] at hsetup
  split at hsetup
  · split at hsetup <;> exact absurd hsetup (by simp)
  · split at hsetup
    · exact absurd hsetup (by simp)
    · split at hsetup
      · exact absurd hsetup (by simp)
      · split at hsetup
        · exact absurd hsetup (by simp)
        · next user pass heq =>
          rw [hauth] at heq
          injection heq with heq2
          injection heq2 with hu hp
          subst hu
          subst hp
          split at hsetup
          · exact absurd hsetup (by simp)
          · next s3Options bucketIdx hloop =>
            split at hsetup
            · exact absurd hsetup (by simp)
            · next v hjson =>
              split at hsetup
              · exact absurd hsetup (by simp)
              · next objectsV operationV hdest =>
                simp only [Except.ok.injEq, Sum.inr.injEq] at hsetup
                have hs3 : c.s3 = s3Options := by rw [← hsetup]
                have hget := overrideLoop_getKey (segsOf req.pathname)
                  [("accessKeyId", u), ("secretAccessKey", pw)] s3Options bucketIdx
                  hloop
                refine ⟨?_, ?_, ?_, ?_⟩
                · intro v2 hla
                  have := hget "accessKeyId"
                  rw [hla] at this
                  rw [hs3, this]
                · intro v2 hla
                  have := hget "secretAccessKey"
                  rw [hla] at this
                  rw [hs3, this]
                · intro hla
                  have := hget "accessKeyId"
                  rw [hla] at this
                  rw [hs3, this]
                  simp [getKey, List.find?]
                · intro hla
                  have := hget "secretAccessKey"
                  rw [hla] at this
                  rw [hs3, this]
                  simp [getKey, List.find?]

/-- Witness for C10: the path segment `accessKeyId=AK2` replaces the
header-decoded access key `AK`, while the secret key from the header stays. -/
theorem c10_override_creds_witness :
    getKey cOv.s3 "accessKeyId" = some "AK2" ∧
    getKey cOv.s3 "secretAccessKey" = some "SEKRET" ∧
    lastAssign (segsOf reqOverride.pathname) "accessKeyId" = some "AK2" := by
  have h := c10_override_creds reqOverride "AK" "SEKRET" cOv (by decide) (by decide)
  exact ⟨h.1 "AK2" (by decide), h.2.2.2 (by decide), by decide⟩

theorem mkPartActions_expiry (expV : JsValue) :
    ∀ (us : List String) (k : Nat) (p : PartAction),
      p ∈ mkPartActions expV us k → p.expires_in = expV := by
  intro us
  induction us with
  | nil => intro k p hp; simp [mkPartActions] at hp
  | cons u us ih =>
    intro k p hp
    simp only [mkPartActions, List.mem_cons] at hp
    rcases hp with hp | hp
    · rw [hp]
    · exact ih (k + 1) p hp

theorem entryExpiries_processObject (caps : Caps) (s3 : S3Options)
    (bucket pfx : String) (opV : Option JsValue) (expV : JsValue)
    (oidV sizeV : Option JsValue) :
    ∀ e ∈ entryExpiries (processObject caps s3 bucket pfx opV expV oidV sizeV),
      e = expV := by
  intro e he
  unfold processObject processObjectTry at he
  by_cases hg : (isUploadOp opV && jsGtNum sizeV (PART_SIZE : Int)) = true
  · simp only [hg, if_true] at he
    cases hh : handleMultipartUpload caps s3 bucket pfx (jsToStr oidV) sizeV with
    | error er => rw [hh] at he; simp [entryExpiries] at he
    | ok r =>
      rw [hh] at he
      simp only [entryExpiries, List.mem_append, List.mem_map,
        List.mem_singleton] at he
      rcases he with ⟨p, hp, hpe⟩ | he
      · rw [← hpe]; exact mkPartActions_expiry expV r.partUrls 0 p hp
      · rw [he]
  · simp only [hg, if_false, Bool.false_eq_true] at he
    cases hs : sign caps s3 bucket (pfx ++ "/" ++ jsToStr oidV)
        (if isUploadOp opV then "PUT" else "GET") "" with
    | error er => rw [hs] at he; simp [entryExpiries] at he
    | ok href =>
      rw [hs] at he
      simp only [entryExpiries, List.mem_singleton] at he
      rw [he]

/-- C6 counterexample: the request-level expiry override asserted by the
claim does not exist — a request whose path supplies `expiry=120` (the only
request-level channel, and the one merged into the override set) still gets
`expires_in = 3600` when the environment default is unset. -/
theorem c6_counterexample :
    lastAssign (segsOf reqExpiry.pathname) "expiry" = some "120" ∧
    respExpiries (fetchModel capsOk envNone reqExpiry) = [.num 3600] ∧
    JsValue.num 3600 ≠ JsValue.num 120 ∧
    JsValue.num 3600 ≠ JsValue.str "120" := by decide

/-- C6 amended: for every successful batch request, every `expires_in`
attached to an action equals the environment-level `EXPIRY` when that is set
to a truthy value and 3600 seconds otherwise; no request-level override
exists (the `params` object consulted first is always empty, so the resolved
value `expiresOf env` does not depend on the request at all). -/
theorem c6_expiry_resolution (caps : Caps) (env : Env) (req : ReqModel)
    (c : CoreSetup) (a : JsArr)
    (hsetup : setupCore req = .ok (.inr c))
    (hobjs : c.objectsV = some (.arr a))
    (hnn : ∀ x ∈ a.toList, isNullV x = false) :
    (∀ e ∈ respExpiries (fetchModel caps env req), e = expiresOf env) ∧
    expiresOf env = (match env.EXPIRY with
      | some v => if jsTruthy v then v else .num 3600
      | none => .num 3600) := by
  constructor
  · intro e he
    rw [fetch_batch_eq caps env req c a hsetup hobjs hnn] at he
    simp only [batchResp, respExpiries, List.mem_flatten, List.mem_map] at he
    obtain ⟨l, ⟨entry, ⟨x, hx, hentry⟩, hl⟩, hel⟩ := he
    rw [← hl, ← hentry] at hel
    exact entryExpiries_processObject caps c.s3 c.bucket c.pfx c.operationV
      (expiresOf env) (jsGetField x "oid") (jsGetField x "size") e hel
  · cases henv : env.EXPIRY with
    | none =>
      simp only [expiresOf, jsOrV, henv, List.find?]
      rfl
    | some v =>
      simp only [expiresOf, jsOrV, henv, List.find?]
      rfl

/-- Witness for the amended C6: with `EXPIRY` set to `"900"`, the single
action's `expires_in` is exactly that value. -/
theorem c6_expiry_resolution_witness :
    JsValue.str "900" = expiresOf { EXPIRY := some (.str "900") } ∧
    expiresOf { EXPIRY := some (.str "900") } = .str "900" := by
  have h := c6_expiry_resolution capsOk { EXPIRY := some (.str "900") } reqDl cDl
    aDl (by decide) rfl (by decide)
  exact ⟨h.1 (.str "900") (by decide), by decide⟩

/-- C7 counterexample: a well-routed, well-authorized POST whose body is not
valid JSON — `req.json()` rejects with a `SyntaxError` — is answered with
HTTP 500, not the 400 the claim asserts (only a `TypeError` is mapped to
400 by the catch block). -/
theorem c7_counterexample :
    (fetchModel capsOk envNone reqBadJson).status = 500 ∧
    (fetchModel capsOk envNone reqBadJson).status ≠ 400 := by decide

/-- C7 amended: for every POST to a batch path with a well-formed
`Authorization` header (and a decodable override prefix), a body that is not
valid JSON fails with HTTP 500 — the `SyntaxError` from `req.json()` matches
no specific branch of the catch block — while a body that is valid JSON but
destructures to nothing (here `null`) fails with HTTP 400 via the
`TypeError` branch. -/
theorem c7_badbody_status (caps : Caps) (env : Env) (p a u pw : String)
    (opts : S3Options) (bIdx : Nat) (m : String)
    (hends : jsEndsWith p "/objects/batch" = true)
    (hauth : parseAuthorization (some a) = .ok (u, pw))
    (hloop : overrideLoop (segsOf p)
      [("accessKeyId", u), ("secretAccessKey", pw)] = .ok (opts, bIdx))
    (hm : jsIncludes m "NetworkError" = false) :
    (fetchModel caps env
      { method := "POST", pathname := p, authorization := some a,
        jsonOutcome := .error (.synErr m) }).status = 500 ∧
    (fetchModel caps env
      { method := "POST", pathname := p, authorization := some a,
        jsonOutcome := .ok .null }).status = 400 := by
  have hroot : p ≠ "/" := by
    intro hr; rw [hr] at hends; exact absurd hends (by decide)
  constructor
  · simp [fetchModel, fetchRaw, setupCore, hroot, hends, hauth, hloop,
      errorToResponse, JsError.name, JsError.msg, hm, mkTextResp]
  · simp [fetchModel, fetchRaw, setupCore, hroot, hends, hauth, hloop,
      destructureTop, isNullV, errorToResponse, JsError.name, JsError.msg,
      mkTextResp]

/-- Witness for the amended C7 at a concrete request. -/
theorem c7_badbody_status_witness :
    (fetchModel capsOk envNone reqBadJson).status = 500 ∧
    (fetchModel capsOk envNone
      { method := "POST", pathname := "/bucket.example.com/files/objects/batch",
        authorization := some authOkHeader, jsonOutcome := .ok .null }).status
      = 400 := by
  have h := c7_badbody_status capsOk envNone
    "/bucket.example.com/files/objects/batch" authOkHeader "AK" "SEKRET"
    [("accessKeyId", "AK"), ("secretAccessKey", "SEKRET")] 0
    "Unexpected token o in JSON at position 1"
    (by decide) (by decide) (by decide) (by decide)
  exact ⟨h.1, h.2⟩

/-- C5 counterexample: a `Basic` header whose payload is not decodable
base64 makes `atob` throw an `InvalidCharacterError` DOMException, which the
outer catch does not map to 400 — the request fails with HTTP 500, not the
400 the claim asserts. -/
theorem c5_counterexample :
    atob "!!!!" = none ∧
    (fetchModel capsOk envNone reqBadB64).status = 500 ∧
    (fetchModel capsOk envNone reqBadB64).status ≠ 400 := by decide

/-- C5 amended: when the `Authorization` header is absent the request fails
with HTTP 401; for every header `Basic base64(user:pass)` whose decoded
payload contains a colon and no character in `[0x00-0x1F]` or `0x7F`, the
decoded text split at its first colon yields exactly the access-key (user)
and secret-key (pass) fields; a wrong scheme, empty payload, missing colon,
or control characters each cause HTTP 400 — but an undecodable base64
payload causes HTTP 500 (the `InvalidCharacterError` thrown by `atob` is not
mapped by the catch block). -/
theorem c5_auth_parsing (caps : Caps) (env : Env) (p : String)
    (body : Except JsError JsValue)
    (hends : jsEndsWith p "/objects/batch" = true) :
    ((fetchModel caps env
      { method := "POST", pathname := p, authorization := none,
        jsonOutcome := body }).status = 401) ∧
    (∀ a, ((jsSplit a " ")[0]? ≠ some "Basic" ∨ (jsSplit a " ")[1]? = none ∨
        (jsSplit a " ")[1]? = some "") →
      (fetchModel caps env
        { method := "POST", pathname := p, authorization := some a,
          jsonOutcome := body }).status = 400) ∧
    (∀ a e bs, (jsSplit a " ")[0]? = some "Basic" → (jsSplit a " ")[1]? = some e →
      e ≠ "" → atob e = some bs →
      ((nfcNormalize (utf8DecodeRepl bs)).findIdx? (fun n => n = 58) = none ∨
        hasCtl (nfcNormalize (utf8DecodeRepl bs)) = true) →
      (fetchModel caps env
        { method := "POST", pathname := p, authorization := some a,
          jsonOutcome := body }).status = 400) ∧
    (∀ a e bs i, (jsSplit a " ")[0]? = some "Basic" → (jsSplit a " ")[1]? = some e →
      e ≠ "" → atob e = some bs →
      (nfcNormalize (utf8DecodeRepl bs)).findIdx? (fun n => n = 58) = some i →
      hasCtl (nfcNormalize (utf8DecodeRepl bs)) = false →
      parseAuthorization (some a) = .ok
        (cpsToStr ((nfcNormalize (utf8DecodeRepl bs)).take i),
         cpsToStr ((nfcNormalize (utf8DecodeRepl bs)).drop (i + 1)))) ∧
    (∀ a e, (jsSplit a " ")[0]? = some "Basic" → (jsSplit a " ")[1]? = some e →
      e ≠ "" → atob e = none →
      (fetchModel caps env
        { method := "POST", pathname := p, authorization := some a,
          jsonOutcome := body }).status = 500) := by
  have hroot : p ≠ "/" := by
    intro hr; rw [hr] at hends; exact absurd hends (by decide)
  refine ⟨?_, ?_, ?_, ?_, ?_⟩
  · simp [fetchModel, fetchRaw, setupCore, hroot, hends, parseAuthorization,
      errorToResponse, mkTextResp]
  · intro a hcond
    have hpa : parseAuthorization (some a) = .error (.thrownResp
        (mkTextResp 400 "Invalid authorization scheme or credentials")) := by
      simp only [parseAuthorization]
      rw [if_pos hcond]
    simp [fetchModel, fetchRaw, setupCore, hroot, hends, hpa,
      errorToResponse, mkTextResp]
  · intro a e bs h0 h1 he hbs hbad
    have hcond : ¬((jsSplit a " ")[0]? ≠ some "Basic" ∨
        (jsSplit a " ")[1]? = none ∨ (jsSplit a " ")[1]? = some "") := by
      simp [h0, h1, he]
    have hpa : parseAuthorization (some a) = .error (.thrownResp
        (mkTextResp 400 "Unable to decode authorization")) := by
      simp only [parseAuthorization]
      rw [if_neg hcond]
      simp only [h1, Option.getD_some, decodedBytes, hbs]
      rcases hbad with hbad | hbad
      · simp [hbad]
      · cases hidx : (nfcNormalize (utf8DecodeRepl bs)).findIdx?
            (fun n => n = 58) with
        | none => simp
        | some i => simp [hbad]
    simp [fetchModel, fetchRaw, setupCore, hroot, hends, hpa,
      errorToResponse, mkTextResp]
  · intro a e bs i h0 h1 he hbs hidx hctl
    have hcond : ¬((jsSplit a " ")[0]? ≠ some "Basic" ∨
        (jsSplit a " ")[1]? = none ∨ (jsSplit a " ")[1]? = some "") := by
      simp [h0, h1, he]
    simp only [parseAuthorization]
    rw [if_neg hcond]
    simp only [h1, Option.getD_some, decodedBytes, hbs, hidx, hctl]
    simp [hctl]
  · intro a e h0 h1 he hbs
    have hcond : ¬((jsSplit a " ")[0]? ≠ some "Basic" ∨
        (jsSplit a " ")[1]? = none ∨ (jsSplit a " ")[1]? = some "") := by
      simp [h0, h1, he]
    have hpa : parseAuthorization (some a) = .error (.domExc
        "InvalidCharacterError"
        "atob() called with invalid base64-encoded data.") := by
      simp only [parseAuthorization]
      rw [if_neg hcond]
      simp only [h1, Option.getD_some, decodedBytes, hbs]
    simp [fetchModel, fetchRaw, setupCore, hroot, hends, hpa,
      errorToResponse, JsError.name, JsError.msg, jsIncludes, mkTextResp]
    decide

/-- Witness for the amended C5: the fixture header round-trips to
`("AK", "SEKRET")`, and a missing header yields 401. -/
theorem c5_auth_parsing_witness :
    parseAuthorization (some authOkHeader) = .ok ("AK", "SEKRET") ∧
    (fetchModel capsOk envNone
      { method := "POST", pathname := "/b/objects/batch", authorization := none,
        jsonOutcome := .ok .null }).status = 401 := by
  have h := c5_auth_parsing capsOk envNone "/b/objects/batch" (.ok .null)
    (by decide)
  refine ⟨?_, h.1⟩
  have h4 := h.2.2.2.1 authOkHeader "QUs6U0VLUkVU"
    [65, 75, 58, 83, 69, 75, 82, 69, 84] 2
    (by decide) (by decide) (by decide) (by decide) (by decide) (by decide)
  exact h4.trans (by decide)

end LfsProxy
